import Mathlib

/-!
Shallow embedding of the Smart-Money Signal Pipeline of
`src/api/whale_tracker.py` (class `WhaleTracker` and its dataclasses),
together with theorems settling the frozen claims C1..C10 about it.

Modelling conventions:
* Python floats (prices, notional values, percentages, radar weights) are
  modelled as exact rationals `ℚ`.  No claim depends on binary floating
  point artifacts.
* Timestamps and transaction dates are modelled as integers (seconds).
  The source stores transaction dates as `"%Y-%m-%d"` strings and parses
  them with `strptime`; for well-formed dates, lexicographic string order
  coincides with chronological order, so an integer date is a faithful
  model.  Records whose date string fails to parse are skipped by the
  source's cluster detector; the model represents only parseable dates.
* The upstream HTTP endpooints (`_make_request`), the hard-coded mock data
  generators and `datetime.now()` are inputs of the model (`Env`, `now`):
  they are the pipeline's environment, not its logic.
* Python `dict`s (the two cache tiers, the per-batch quote map) are
  modelled as association lists with overwrite-on-insert semantics.
* Python's `sorted` on strings compares Unicode code points; `strLe`
  below is exactly that order.
-/

/-- Code-point comparison of character lists, the order Python uses on
strings (`s1 < s2` on `str`). -/
def leChars : List Char → List Char → Bool
  | [], _ => true
  | _ :: _, [] => false
  | x :: xs, y :: ys =>
    if x.toNat < y.toNat then true
    else if x.toNat = y.toNat then leChars xs ys
    else false

/-- Python string order (non-strict): `a <= b` on `str`. -/
def strLe (a b : String) : Bool := leChars a.data b.data

theorem leChars_trans : ∀ a b c : List Char,
    leChars a b = true → leChars b c = true → leChars a c = true := by
  intro a
  induction a with
  | nil => intro b c _ _; rfl
  | cons x xs ih =>
    intro b c hab hbc
    cases b with
    | nil => simp [leChars] at hab
    | cons y ys =>
      cases c with
      | nil => simp [leChars] at hbc
      | cons z zs =>
        simp only [leChars] at hab hbc ⊢
        split_ifs at hab hbc ⊢ <;>
          first
          | rfl
          | exact ih ys zs hab hbc
          | omega

theorem leChars_total : ∀ a b : List Char,
    leChars a b = true ∨ leChars b a = true := by
  intro a
  induction a with
  | nil => intro b; left; rfl
  | cons x xs ih =>
    intro b
    cases b with
    | nil => right; rfl
    | cons y ys =>
      simp only [leChars]
      rcases Nat.lt_trichotomy x.toNat y.toNat with h | h | h
      · left; simp [h]
      · rcases ih ys with h2 | h2
        · left; simp [h, h2]
        · right
          simp only [h.symm]
          simp [h2]
      · right; simp [h]

theorem leChars_antisymm : ∀ a b : List Char,
    leChars a b = true → leChars b a = true → a = b := by
  intro a
  induction a with
  | nil =>
    intro b hab _
    cases b with
    | nil => rfl
    | cons y ys => simp [leChars] at *
  | cons x xs ih =>
    intro b hab hba
    cases b with
    | nil => simp [leChars] at hab
    | cons y ys =>
      simp only [leChars] at hab hba
      split_ifs at hab hba <;> try omega
      have hxy : x = y := by
        have h1 : x.toNat = y.toNat := by omega
        have h2 : x.val = y.val := by
          apply UInt32.toNat.inj
          exact h1
        exact Char.eq_of_val_eq h2
      rw [hxy, ih ys hab hba]

theorem strLe_trans (a b c : String) :
    strLe a b = true → strLe b c = true → strLe a c = true :=
  leChars_trans a.data b.data c.data

theorem strLe_total (a b : String) : strLe a b = true ∨ strLe b a = true :=
  leChars_total a.data b.data

theorem strLe_antisymm (a b : String) :
    strLe a b = true → strLe b a = true → a = b := by
  intro h1 h2
  have hd := leChars_antisymm a.data b.data h1 h2
  cases a
  cases b
  simp only at hd
  rw [hd]

-- ===========================================================================
-- TTL CACHE (source lines 213-269: CACHE_DURATION, _get_cache_key,
-- _get_cached, _set_cached).  A cache state has the in-memory tier
-- (`_memory_cache`: key -> (data, timestamp)) and the durable file tier
-- (one JSON file per key, whose mtime is the write timestamp).
-- ===========================================================================

/-- CACHE_DURATION = 300 seconds (5 minutes). -/
def CACHE_DURATION : Int := 300

/-- A cache tier: key -> (data, write-timestamp), dict semantics. -/
structure CacheState (α : Type) where
  mem : List (String × α × Int) := []
  file : List (String × α × Int) := []
deriving DecidableEq, Repr

/-- Dictionary lookup in a tier. -/
def alookup {α : Type} (l : List (String × α × Int)) (key : String) :
    Option (α × Int) :=
  (l.find? (fun e => e.1 == key)).map (fun e => e.2)

/-- Dictionary overwrite in a tier. -/
def aset {α : Type} (l : List (String × α × Int)) (key : String) (data : α)
    (t : Int) : List (String × α × Int) :=
  (key, data, t) :: l.filter (fun e => e.1 != key)

/-- Source `_get_cached`, file-tier half: if the key's file exists and its
mtime is within CACHE_DURATION, load it, repopulate the memory tier with
(data, mtime) and return it; otherwise report a miss.  A corrupt or
unreadable file is treated as a miss (the `except` branch), which the model
absorbs into key absence. -/
def getCachedFile {α : Type} (s : CacheState α) (key : String) (now : Int) :
    Option α × CacheState α :=
  match alookup s.file key with
  | some (data, mtime) =>
    if now - mtime < CACHE_DURATION then
      (some data, { s with mem := aset s.mem key data mtime })
    else (none, s)
  | none => (none, s)

/-- Source `_get_cached`: memory tier first (fresh hit returns directly),
then the file tier. -/
def getCached {α : Type} (s : CacheState α) (key : String) (now : Int) :
    Option α × CacheState α :=
  match alookup s.mem key with
  | some (data, t) =>
    if now - t < CACHE_DURATION then (some data, s)
    else getCachedFile s key now
  | none => getCachedFile s key now

/-- Source `_set_cached`: write-through to both tiers, stamped `now`.
The model takes the non-exceptional path of the file write (the source
silently skips an `OSError`). -/
def setCached {α : Type} (s : CacheState α) (key : String) (data : α)
    (now : Int) : CacheState α :=
  { mem := aset s.mem key data now, file := aset s.file key data now }

/-- Source `_get_cache_key`: `[name] + sorted(kwargs.items())`, keeping the
items whose value is not None, each rendered as "k=v", joined by "_".
Keyword argument values are modelled already stringified; `none` is
Python's None. -/
def kwLe (a b : String × Option String) : Prop := strLe a.1 b.1 = true

instance : DecidableRel kwLe := fun a b => by unfold kwLe; infer_instance

instance : IsTotal (String × Option String) kwLe :=
  ⟨fun a b => strLe_total a.1 b.1⟩

instance : IsTrans (String × Option String) kwLe :=
  ⟨fun a b c => strLe_trans a.1 b.1 c.1⟩

def getCacheKey (name : String) (kwargs : List (String × Option String)) :
    String :=
  let sortedItems := List.insertionSort kwLe kwargs
  let parts :=
    (sortedItems.filter (fun p => p.2 ≠ none)).map
      (fun p => p.1 ++ "=" ++ p.2.getD "")
  String.intercalate "_" (name :: parts)

-- ===========================================================================
-- DATA MODELS (source lines 25-144: dataclasses InsiderTrade,
-- ClusterActivity, GuruHolding, WhaleAlert).
-- ===========================================================================

/-- Dataclass `InsiderTrade` (source lines 25-43).  Enrichment and
classification fields are `none` until the enricher runs. -/
structure InsiderTrade where
  symbol : String
  company_name : String
  reporter_name : String
  reporter_title : String
  transaction_type : String
  transaction_date : Int
  shares_transacted : Int
  price : ℚ
  total_value : ℚ
  shares_owned_after : Option Int := none
  market_cap : Option ℚ := none
  shares_outstanding : Option Int := none
  pct_of_outstanding : Option ℚ := none
  pct_of_market_cap : Option ℚ := none
  significance : Option String := none
deriving DecidableEq, Repr

/-- Property `is_buy` (source lines 45-47):
`transaction_type in ['P', 'P-Purchase']`. -/
def InsiderTrade.is_buy (t : InsiderTrade) : Prop :=
  t.transaction_type = "P" ∨ t.transaction_type = "P-Purchase"

instance (t : InsiderTrade) : Decidable t.is_buy := by
  unfold InsiderTrade.is_buy; infer_instance

/-- Property `is_sell` (source lines 49-51):
`transaction_type in ['S', 'S-Sale']`. -/
def InsiderTrade.is_sell (t : InsiderTrade) : Prop :=
  t.transaction_type = "S" ∨ t.transaction_type = "S-Sale"

instance (t : InsiderTrade) : Decidable t.is_sell := by
  unfold InsiderTrade.is_sell; infer_instance

/-- Property `signal_strength` (source lines 53-63): absolute-size
magnitude tier of the transaction. -/
def InsiderTrade.signal_strength (t : InsiderTrade) : String :=
  if t.total_value ≥ 10000000 then "massive"
  else if t.total_value ≥ 1000000 then "large"
  else if t.total_value ≥ 100000 then "significant"
  else "minor"

/-- Python `x or 0` on an optional numeric field: None and 0 both give 0,
any other value passes through. -/
def pyOr0 (o : Option ℚ) : ℚ :=
  match o with
  | none => 0
  | some x => x

/-- Method `calculate_significance` (source lines 65-83): company-relative
significance tier, with absent enrichment treated as 0. -/
def InsiderTrade.calculate_significance (t : InsiderTrade) : String :=
  let pct_out := pyOr0 t.pct_of_outstanding
  let pct_cap := pyOr0 t.pct_of_market_cap
  if pct_out > 1 ∨ pct_cap > 0.5 then "CRITICAL"
  else if pct_out > 0.5 ∨ pct_cap > 0.2 then "HIGH"
  else if pct_out > 0.1 then "MEDIUM"
  else "LOW"

/-- Dataclass `ClusterActivity` (source lines 86-96).  `date_range` is the
source's "first to last" string, modelled as the (first, last) pair of the
sorted contributing dates. -/
structure ClusterActivity where
  symbol : String
  company_name : String
  activity_type : String
  insider_count : ℕ
  total_value : ℚ
  date_range : Int × Int
  insiders : List String
  urgency : String
deriving DecidableEq, Repr

/-- Dataclass `GuruHolding` (source lines 99-113). -/
structure GuruHolding where
  fund_name : String
  fund_manager : String
  symbol : String
  company_name : String
  shares : Int
  value : ℚ
  weight_percent : ℚ
  change_type : String
  change_shares : Int
  change_percent : ℚ
  quarter : String
  filing_date : String
deriving DecidableEq, Repr

/-- Payload of `WhaleAlert.details` (source: `asdict` of the originating
record). -/
inductive AlertDetails where
  | trade (t : InsiderTrade)
  | cluster (c : ClusterActivity)
deriving DecidableEq, Repr

/-- Dataclass `WhaleAlert` (source lines 133-144). -/
structure WhaleAlert where
  alert_type : String
  symbol : String
  headline : String
  description : String
  signal : String
  magnitude : String
  timestamp : Int
  source : String
  details : AlertDetails
deriving DecidableEq, Repr

/-- One radar blip of `_format_radar_blips` (source lines 812-822). -/
structure RadarBlip where
  symbol : String
  angle : ℚ
  distance : ℚ
  strength : ℚ
  label : String
  color : String
  type : String
  signal : String
  timestamp : Int
deriving DecidableEq, Repr

/-- Result dict of `get_radar_data` (source lines 757-771), with the
summary sub-dict flattened.  The free-text `ai_context` field is omitted:
it is presentation only and no claim mentions it. -/
structure RadarResult where
  timestamp : Int
  total_signals : ℕ
  bullish : ℕ
  bearish : ℕ
  sentiment : String
  alerts : List WhaleAlert
  clusters : List WhaleAlert
  blips : List RadarBlip
deriving DecidableEq, Repr

/-- Values stored in the shared cache.  The source caches JSON under keys
that are disjoint by function-name leading part, so the variants never
mix for keys written by this pipeline. -/
inductive CacheVal where
  | trades (l : List InsiderTrade)
  | quote (market_cap : ℚ) (shares_outstanding : Int)
  | holdings (l : List GuruHolding)
  | alerts (l : List WhaleAlert)
  | radar (r : RadarResult)
deriving DecidableEq, Repr

/-- Raw insider-transaction record as delivered by the upstream source
(one item of the `/v4/insider-trading` response).  A `none` in
`securitiesTransacted` or `price` models a value on which `int()` /
`float()` raises, making the source skip the record. -/
structure RawTrade where
  symbol : String
  companyName : String
  reportingName : String
  typeOfOwner : String
  transactionType : String
  transactionDate : Int
  securitiesTransacted : Option Int
  price : Option ℚ
  securitiesOwned : Option Int := none
deriving DecidableEq, Repr

/-- Raw institutional-holder record (one item of the
`/v3/institutional-holder/{cik}` response).  `none` models a value on
which the numeric conversion raises, making the source skip the record. -/
structure RawHolding where
  symbol : String
  securityName : String
  shares : Option Int
  value : Option ℚ
  weightPercent : Option ℚ
  changeInShares : Option Int
  changeInSharesPercent : Option ℚ
  previousShares : Int
  filingDate : String
deriving DecidableEq, Repr

/-- Environment of the pipeline: the upstream HTTP endpoints wrapped by
`_make_request` (a `none` response models request failure), and the
hard-coded mock generators `_get_mock_insider_trades` /
`_get_mock_guru_holdings` (whose records carry dates relative to the
current day, hence environment inputs here).  No claim depends on the
mock contents. -/
structure Env where
  fetchInsider : Option String → ℕ → Option (List RawTrade)
  fetchQuote : String → Option (ℚ × Int)
  fetchHolder : String → Option (List RawHolding)
  mockTrades : Option String → List InsiderTrade
  mockHoldings : String → List GuruHolding

-- ===========================================================================
-- INSIDER TRADES: fetch, parse, enrich (source lines 293-403).
-- ===========================================================================

/-- Python `round(x)` to an integer: round-half-to-even. -/
def pyRound (x : ℚ) : Int :=
  let f := x.floor
  let r := x - f
  if r < 1/2 then f
  else if 1/2 < r then f + 1
  else if 2 ∣ f then f else f + 1

/-- Python `round(x, 6)` as used by the enricher.  (On floats Python
rounds the binary value; no claim depends on the sub-micro difference.) -/
def round6 (x : ℚ) : ℚ := (pyRound (x * 1000000) : ℚ) / 1000000

/-- Dollar amount rendered for headlines (source f-string `:,.0f`; the
model drops the thousands separators, which no claim inspects). -/
def moneyStr (v : ℚ) : String := "$" ++ toString (pyRound v)

/-- Cache key of `get_insider_trades` (source line 309): kwargs are
`symbol=symbol, limit=limit`; a `none` symbol is Python None and is
dropped by `_get_cache_key`. -/
def insiderKey (symbol : Option String) (limit : ℕ) : String :=
  getCacheKey "insider_trades" [("symbol", symbol), ("limit", some (toString limit))]

/-- Parsing of one raw record into an `InsiderTrade` (source lines
330-346): `shares_transacted = abs(shares)`, `total_value =
abs(shares * price)`; a record whose numeric fields fail to convert is
skipped (`none`). -/
def parseRawTrade (item : RawTrade) : Option InsiderTrade :=
  match item.securitiesTransacted, item.price with
  | some shares, some price =>
    some { symbol := item.symbol
           company_name := item.companyName
           reporter_name := item.reportingName
           reporter_title := item.typeOfOwner
           transaction_type := item.transactionType
           transaction_date := item.transactionDate
           shares_transacted := |shares|
           price := price
           total_value := |(shares : ℚ) * price|
           shares_owned_after := item.securitiesOwned }
  | _, _ => none

/-- One step of the quote fetch-or-cache loop of `_enrich_insider_trades`
(source lines 369-381), threading the batch quote map and the cache
state.  Cache key is `"quote_" + symbol`. -/
def quoteStep (env : Env) (now : Int)
    (acc : List (String × ℚ × Int) × CacheState CacheVal) (sym : String) :
    List (String × ℚ × Int) × CacheState CacheVal :=
  match getCached acc.2 ("quote_" ++ sym) now with
  | (some (CacheVal.quote mc so), s1) => (acc.1 ++ [(sym, mc, so)], s1)
  | (some _, s1) => (acc.1, s1)
  | (none, s1) =>
    match env.fetchQuote sym with
    | some (mc, so) =>
      (acc.1 ++ [(sym, mc, so)],
       setCached s1 ("quote_" ++ sym) (CacheVal.quote mc so) now)
    | none => (acc.1, s1)

/-- The distinct symbols of a batch: `list(set(t.symbol for t in trades
if t.symbol))` (source line 365).  CPython's set order is unspecified;
the model fixes first-occurrence order via `dedup` of the reversed list
is unnecessary — only which symbols are in the first 20 matters to any
claim, never their order. -/
def batchSymbols (trades : List InsiderTrade) : List String :=
  (trades.filterMap (fun t => if t.symbol ≠ "" then some t.symbol else none)).dedup

/-- Per-trade enrichment against the batch quote map (source lines
384-401): `market_data.get(trade.symbol, {})`, truthiness-guarded field
writes, then `significance = calculate_significance()`. -/
def enrichTrade (md : List (String × ℚ × Int)) (t : InsiderTrade) :
    InsiderTrade :=
  let mc : ℚ := ((md.find? (fun e => e.1 == t.symbol)).map (fun e => e.2.1)).getD 0
  let so : Int := ((md.find? (fun e => e.1 == t.symbol)).map (fun e => e.2.2)).getD 0
  let pctOut : ℚ :=
    if so > 0 then round6 (((t.shares_transacted : ℚ) / (so : ℚ)) * 100) else 0
  let t1 : InsiderTrade := if mc ≠ 0 then { t with market_cap := some mc } else t
  let t2 : InsiderTrade :=
    if so ≠ 0 then
      { t1 with
        shares_outstanding := some so
        pct_of_outstanding := some pctOut }
    else t1
  let pctCap : ℚ := round6 ((t.total_value / mc) * 100)
  let t3 : InsiderTrade :=
    if 0 < mc then { t2 with pct_of_market_cap := some pctCap }
    else t2
  { t3 with significance := some t3.calculate_significance }

/-- Method `_enrich_insider_trades` (source lines 359-403): quote
fetch-or-cache for at most the first 20 distinct symbols of the batch,
then in-place enrichment of every trade. -/
def enrichInsiderTrades (env : Env) (st : CacheState CacheVal)
    (trades : List InsiderTrade) (now : Int) :
    List InsiderTrade × CacheState CacheVal :=
  let symbols := batchSymbols trades
  let p := (symbols.take 20).foldl (quoteStep env now) ([], st)
  (trades.map (enrichTrade p.1), p.2)

/-- Method `get_insider_trades` (source lines 293-357): cache check,
upstream fetch (falsy response falls back to the mock data), per-item
parse with skip-on-error, enrichment, and a cache write only when the
result list is non-empty. -/
def getInsiderTrades (env : Env) (st : CacheState CacheVal)
    (symbol : Option String) (limit : ℕ) (now : Int) :
    List InsiderTrade × CacheState CacheVal :=
  match getCached st (insiderKey symbol limit) now with
  | (some (CacheVal.trades l), st1) => (l, st1)
  | (some _, st1) => ([], st1)
  | (none, st1) =>
    match env.fetchInsider symbol limit with
    | none => (env.mockTrades symbol, st1)
    | some [] => (env.mockTrades symbol, st1)
    | some raw =>
      let parsed := (raw.take limit).filterMap parseRawTrade
      let p := enrichInsiderTrades env st1 parsed now
      if p.1 = [] then p
      else (p.1, setCached p.2 (insiderKey symbol limit) (CacheVal.trades p.1) now)

-- ===========================================================================
-- CLUSTER DETECTION (source lines 405-491: detect_cluster_activity).
-- ===========================================================================

/-- Construction of one `ClusterActivity` from one side's in-window
trades (source lines 447-489, common shape of the buy and sell blocks).
`dates` is the sorted list of the side's transaction dates; the source's
date-range string "first to last" is the (head, last) pair here. -/
def mkCluster (symbol : String) (trades side : List InsiderTrade)
    (activity : String) (uniqueNames : List String) : ClusterActivity :=
  let dates := List.insertionSort (fun a b : Int => a ≤ b) (side.map (·.transaction_date))
  { symbol := symbol
    company_name := ((trades.head?).map (·.company_name)).getD symbol
    activity_type := activity
    insider_count := uniqueNames.length
    total_value := (side.map (·.total_value)).sum
    date_range := ((dates.head?).getD 0, (dates.getLast?).getD 0)
    insiders := uniqueNames
    urgency :=
      if uniqueNames.length ≥ 4 then "critical"
      else if uniqueNames.length ≥ 3 then "high"
      else "moderate" }

/-- The window cutoff `datetime.now() - timedelta(days=days)` (source
line 429), in seconds. -/
def clusterCutoff (days : ℕ) (now : Int) : Int := now - (days : Int) * 86400

/-- The trades within the trailing window (source lines 430-438). -/
def recentTrades (trades : List InsiderTrade) (days : ℕ) (now : Int) :
    List InsiderTrade :=
  trades.filter (fun t => t.transaction_date ≥ clusterCutoff days now)

/-- The buy side of the window (source line 441). -/
def buyTrades (trades : List InsiderTrade) (days : ℕ) (now : Int) :
    List InsiderTrade :=
  (recentTrades trades days now).filter (fun t => t.is_buy)

/-- The sell side of the window (source line 442). -/
def sellTrades (trades : List InsiderTrade) (days : ℕ) (now : Int) :
    List InsiderTrade :=
  (recentTrades trades days now).filter (fun t => t.is_sell)

/-- Distinct buy-side actor names, `list(set(...))` (source line 448):
`dedup` — only cardinality and membership matter, CPython's set order is
unspecified. -/
def uniqueBuyers (trades : List InsiderTrade) (days : ℕ) (now : Int) :
    List String :=
  ((buyTrades trades days now).map (·.reporter_name)).dedup

/-- Distinct sell-side actor names (source line 469). -/
def uniqueSellers (trades : List InsiderTrade) (days : ℕ) (now : Int) :
    List String :=
  ((sellTrades trades days now).map (·.reporter_name)).dedup

/-- Aggregate buy-side notional (source line 450). -/
def buySideTotal (trades : List InsiderTrade) (days : ℕ) (now : Int) : ℚ :=
  ((buyTrades trades days now).map (·.total_value)).sum

/-- Aggregate sell-side notional (source line 471). -/
def sellSideTotal (trades : List InsiderTrade) (days : ℕ) (now : Int) : ℚ :=
  ((sellTrades trades days now).map (·.total_value)).sum

/-- Core of `detect_cluster_activity` (source lines 425-491), after the
trade history has been obtained: window filter, buy/sell split, distinct
actors per side, buy cluster first, then the sell side overriding it
when no buy cluster exists or the sell total is strictly larger. -/
def detectClusterFrom (symbol : String) (trades : List InsiderTrade)
    (days : ℕ) (min_insiders : ℕ) (now : Int) : Option ClusterActivity :=
  if trades = [] then none
  else
    let c1 : Option ClusterActivity :=
      if (uniqueBuyers trades days now).length ≥ min_insiders then
        some (mkCluster symbol trades (buyTrades trades days now) "cluster_buy"
          (uniqueBuyers trades days now))
      else none
    if (uniqueSellers trades days now).length ≥ min_insiders then
      match c1 with
      | none =>
        some (mkCluster symbol trades (sellTrades trades days now) "cluster_sell"
          (uniqueSellers trades days now))
      | some c =>
        if sellSideTotal trades days now > c.total_value then
          some (mkCluster symbol trades (sellTrades trades days now) "cluster_sell"
            (uniqueSellers trades days now))
        else some c
    else c1

/-- Method `detect_cluster_activity` (source lines 405-491): fetches the
symbol's history with `get_insider_trades(symbol, limit=100)` and runs
the detection core on it. -/
def detectClusterActivity (env : Env) (st : CacheState CacheVal)
    (symbol : String) (days : ℕ) (min_insiders : ℕ) (now : Int) :
    Option ClusterActivity × CacheState CacheVal :=
  let p := getInsiderTrades env st (some symbol) 100 now
  (detectClusterFrom symbol p.1 days min_insiders now, p.2)

-- ===========================================================================
-- 13F GURU HOLDINGS (source lines 497-571).
-- ===========================================================================

/-- One entry of the class attribute `GURU_FUNDS` (source lines 162-211). -/
structure GuruFund where
  id : String
  name : String
  manager : String
  cik : String
deriving DecidableEq, Repr

/-- Class attribute `GURU_FUNDS` (source lines 162-211; the avatar emoji
are display only and carried nowhere, so they are not modelled). -/
def GURU_FUNDS : List GuruFund :=
  [⟨"berkshire", "Berkshire Hathaway", "Warren Buffett", "0001067983"⟩,
   ⟨"bridgewater", "Bridgewater Associates", "Ray Dalio", "0001350694"⟩,
   ⟨"scion", "Scion Asset Management", "Michael Burry", "0001649339"⟩,
   ⟨"pershing", "Pershing Square", "Bill Ackman", "0001336528"⟩,
   ⟨"appaloosa", "Appaloosa Management", "David Tepper", "0001006438"⟩,
   ⟨"greenlight", "Greenlight Capital", "David Einhorn", "0001079114"⟩,
   ⟨"icahn", "Icahn Enterprises", "Carl Icahn", "0000810958"⟩,
   ⟨"druckenmiller", "Duquesne Family Office", "Stanley Druckenmiller", "0001536411"⟩]

/-- Method `_determine_change_type` (source lines 556-571). -/
def determine_change_type (change prev_shares curr_shares : Int) : String :=
  if prev_shares = 0 ∧ curr_shares > 0 then "new"
  else if curr_shares = 0 ∧ prev_shares > 0 then "sold_out"
  else if change > 0 then "increased"
  else if change < 0 then "decreased"
  else "unchanged"

/-- Cache key of `get_guru_holdings` (source line 513). -/
def guruKey (guru_id : String) (limit : ℕ) : String :=
  getCacheKey "guru_holdings"
    [("guru_id", some guru_id), ("limit", some (toString limit))]

/-- Parsing of one raw 13F record (source lines 530-548): any numeric
conversion failure skips the record. -/
def parseRawHolding (guru : GuruFund) (item : RawHolding) :
    Option GuruHolding :=
  match item.shares, item.value, item.weightPercent, item.changeInShares,
      item.changeInSharesPercent with
  | some sh, some v, some wp, some ch, some chp =>
    some { fund_name := guru.name
           fund_manager := guru.manager
           symbol := item.symbol
           company_name := item.securityName
           shares := sh
           value := v
           weight_percent := wp
           change_type := determine_change_type ch item.previousShares sh
           change_shares := ch
           change_percent := chp
           quarter := item.filingDate.take 7
           filing_date := item.filingDate }
  | _, _, _, _, _ => none

/-- Method `get_guru_holdings` (source lines 497-554): cache check,
GURU_FUNDS lookup (unknown id returns [] with no fetch and no write),
upstream fetch (falsy response falls back to the mock data), per-item
parse with skip-on-error, and a cache write only when the result list is
non-empty. -/
def getGuruHoldings (env : Env) (st : CacheState CacheVal)
    (guru_id : String) (limit : ℕ) (now : Int) :
    List GuruHolding × CacheState CacheVal :=
  match getCached st (guruKey guru_id limit) now with
  | (some (CacheVal.holdings l), st1) => (l, st1)
  | (some _, st1) => ([], st1)
  | (none, st1) =>
    match GURU_FUNDS.find? (fun g => g.id == guru_id) with
    | none => ([], st1)
    | some guru =>
      match env.fetchHolder guru.cik with
      | none => (env.mockHoldings guru_id, st1)
      | some [] => (env.mockHoldings guru_id, st1)
      | some raw =>
        let holdings := (raw.take limit).filterMap (parseRawHolding guru)
        if holdings = [] then (holdings, st1)
        else
          (holdings,
           setCached st1 (guruKey guru_id limit) (CacheVal.holdings holdings) now)

-- ===========================================================================
-- WHALE ALERTS - aggregated view (source lines 647-728).
-- ===========================================================================

/-- The `symbols_key` of `get_whale_alerts` / `get_radar_data` (source
lines 659, 741): `"_".join(sorted(symbols)) if symbols else "all"`,
where Python's truthiness makes both `None` and `[]` fall to "all". -/
def symbolsKey (symbols : Option (List String)) : String :=
  match symbols with
  | some l =>
    if l ≠ [] then
      String.intercalate "_" (List.insertionSort (fun a b => strLe a b = true) l)
    else "all"
  | none => "all"

/-- Cache key of `get_whale_alerts` (source line 660). -/
def whaleKey (symbols : Option (List String)) (limit : ℕ) : String :=
  getCacheKey "whale_alerts"
    [("symbols", some (symbolsKey symbols)), ("limit", some (toString limit))]

/-- Transaction alert of the symbol-scoped branch (source lines 673-684). -/
def mkInsiderAlertSym (t : InsiderTrade) : WhaleAlert :=
  { alert_type := "insider"
    symbol := t.symbol
    headline :=
      (if t.is_buy then "🟢 " else "🔴 ") ++ t.reporter_name ++
        (if t.is_buy then " bought " else " sold ") ++ moneyStr t.total_value ++
        " of " ++ t.symbol
    description :=
      t.reporter_title ++ " " ++ t.reporter_name ++ " executed a " ++
        t.signal_strength ++ (if t.is_buy then " purchase" else " sale")
    signal := if t.is_buy then "bullish" else "bearish"
    magnitude := t.signal_strength
    timestamp := t.transaction_date
    source := "SEC Form 4"
    details := AlertDetails.trade t }

/-- Transaction alert of the market-wide branch (source lines 707-717);
only the description differs from the symbol-scoped one. -/
def mkInsiderAlertMkt (t : InsiderTrade) : WhaleAlert :=
  { alert_type := "insider"
    symbol := t.symbol
    headline :=
      (if t.is_buy then "🟢 " else "🔴 ") ++ t.reporter_name ++
        (if t.is_buy then " bought " else " sold ") ++ moneyStr t.total_value ++
        " of " ++ t.symbol
    description := t.reporter_title ++ " at " ++ t.company_name
    signal := if t.is_buy then "bullish" else "bearish"
    magnitude := t.signal_strength
    timestamp := t.transaction_date
    source := "SEC Form 4"
    details := AlertDetails.trade t }

/-- Cluster alert (source lines 688-701).  The timestamp is
`date_range.split(" to ")[-1]`, i.e. the last date of the range. -/
def mkClusterAlert (c : ClusterActivity) : WhaleAlert :=
  let cluster_is_buy : Bool := c.activity_type == "cluster_buy"
  { alert_type := "cluster"
    symbol := c.symbol
    headline :=
      "🚨 CLUSTER " ++ (if cluster_is_buy then "BUY" else "SELL") ++ ": " ++
        toString c.insider_count ++ " insiders acted on " ++ c.symbol
    description :=
      String.intercalate ", " (c.insiders.take 3) ++
        (if c.insiders.length > 3 then "..." else "") ++
        " collectively " ++ (if cluster_is_buy then "bought " else "sold ") ++
        moneyStr c.total_value
    signal := if cluster_is_buy then "bullish" else "bearish"
    magnitude := if c.urgency == "critical" then "massive" else "large"
    timestamp := c.date_range.2
    source := "SEC Form 4 Analysis"
    details := AlertDetails.cluster c }

/-- Python's stable `sort(key=timestamp, reverse=True)` (source line
721): a stable descending sort by timestamp. -/
def sortAlerts (l : List WhaleAlert) : List WhaleAlert :=
  List.insertionSort (fun a b : WhaleAlert => b.timestamp ≤ a.timestamp) l

/-- One symbol of the symbol-scoped branch of `get_whale_alerts` (source
lines 669-701): transaction alerts for trades with notional >= 100,000,
then the symbol's cluster alert if any. -/
def symbolStep (env : Env) (now : Int)
    (acc : List WhaleAlert × CacheState CacheVal) (sym : String) :
    List WhaleAlert × CacheState CacheVal :=
  let p := getInsiderTrades env acc.2 (some sym) 10 now
  let tradeAlerts :=
    (p.1.filter (fun t => t.total_value ≥ 100000)).map mkInsiderAlertSym
  let q := detectClusterActivity env p.2 sym 30 2 now
  match q.1 with
  | some c => (acc.1 ++ tradeAlerts ++ [mkClusterAlert c], q.2)
  | none => (acc.1 ++ tradeAlerts, q.2)

/-- Market-wide branch of `get_whale_alerts` (source lines 703-718):
trades from `get_insider_trades(limit=50)`, alert per trade with
notional >= 500,000 (the higher market-wide floor). -/
def marketAlerts (env : Env) (st : CacheState CacheVal) (now : Int) :
    List WhaleAlert × CacheState CacheVal :=
  let p := getInsiderTrades env st none 50 now
  ((p.1.filter (fun t => t.total_value ≥ 500000)).map mkInsiderAlertMkt, p.2)

/-- Alert aggregation of `get_whale_alerts` before truncation (source
lines 665-721): the branch on `if symbols:` (symbol-scoped over the
first 5 symbols, or market-wide), followed by the stable descending sort
by timestamp.  This is the full, untruncated alert list. -/
def whaleAlertsCompute (env : Env) (st : CacheState CacheVal)
    (symbols : Option (List String)) (now : Int) :
    List WhaleAlert × CacheState CacheVal :=
  let raw :=
    match symbols with
    | some syms =>
      if syms ≠ [] then (syms.take 5).foldl (symbolStep env now) ([], st)
      else marketAlerts env st now
    | none => marketAlerts env st now
  (sortAlerts raw.1, raw.2)

/-- Method `get_whale_alerts` (source lines 647-728): cache check,
aggregation, truncation to `limit`, and a cache write only when the
truncated result is non-empty. -/
def getWhaleAlerts (env : Env) (st : CacheState CacheVal)
    (symbols : Option (List String)) (limit : ℕ) (now : Int) :
    List WhaleAlert × CacheState CacheVal :=
  match getCached st (whaleKey symbols limit) now with
  | (some (CacheVal.alerts l), st1) => (l, st1)
  | (some _, st1) => ([], st1)
  | (none, st1) =>
    let p := whaleAlertsCompute env st1 symbols now
    let result := p.1.take limit
    if result = [] then (result, p.2)
    else (result, setCached p.2 (whaleKey symbols limit) (CacheVal.alerts result) now)

-- ===========================================================================
-- RADAR PROJECTION (source lines 734-823).
-- ===========================================================================

/-- Python float `x % 360` for the angle computation (nonnegative
dividend in every reachable call). -/
def qmod360 (x : ℚ) : ℚ := x - 360 * ((x / 360).floor : ℚ)

/-- The fixed `magnitude_map` dict of `_format_radar_blips` (source line
795): massive 1.0, large 0.8, significant 0.6, moderate 0.4; anything
else (in particular "minor") is absent and falls to the lookup default
0.5. -/
def magnitude_map (m : String) : Option ℚ :=
  if m = "massive" then some 1
  else if m = "large" then some 0.8
  else if m = "significant" then some 0.6
  else if m = "moderate" then some 0.4
  else none

/-- Method `_format_radar_blips` (source lines 778-823): at most 20
blips, evenly distributed angles `i * 360 / num_alerts % 360`, weight
from `magnitude_map.get(magnitude, 0.5)`, `distance = 1.0 - weight *
0.6`, `strength = weight`, color by signal. -/
def formatRadarBlips (alerts : List WhaleAlert) : List RadarBlip :=
  let num_alerts := min alerts.length 20
  (alerts.take 20).enum.map (fun p =>
    let i := p.1
    let alert := p.2
    let angle := qmod360 ((i : ℚ) * 360 / ((max num_alerts 1 : ℕ) : ℚ))
    let magnitude_value := (magnitude_map alert.magnitude).getD 0.5
    let distance : ℚ := 1 - magnitude_value * 0.6
    let strength := magnitude_value
    let color :=
      if alert.signal = "bullish" then "#10b981"
      else if alert.signal = "bearish" then "#ef4444"
      else "#f59e0b"
    { symbol := alert.symbol
      angle := angle
      distance := distance
      strength := strength
      label := alert.headline
      color := color
      type := alert.alert_type
      signal := alert.signal
      timestamp := alert.timestamp })

/-- Cache key of `get_radar_data` (source line 742). -/
def radarKey (symbols : Option (List String)) : String :=
  getCacheKey "radar_data" [("symbols", some (symbolsKey symbols))]

/-- Fallback value for a cache entry of unexpected shape; unreachable
for keys this pipeline writes (cache key namespaces are disjoint), where
Python would fault on the stored JSON's shape instead. -/
def emptyRadar : RadarResult :=
  { timestamp := 0, total_signals := 0, bullish := 0, bearish := 0,
    sentiment := "neutral", alerts := [], clusters := [], blips := [] }

/-- Method `get_radar_data` (source lines 734-776): cache check, alerts
via `get_whale_alerts(symbols, limit=20)`, signal counts and sentiment
over that (already truncated) list, blips, and an unconditional cache
write of the result.  (The source also computes an `insider_alerts`
grouping it never uses, and the free-text `ai_context`; neither is
modelled.) -/
def getRadarData (env : Env) (st : CacheState CacheVal)
    (symbols : Option (List String)) (now : Int) :
    RadarResult × CacheState CacheVal :=
  match getCached st (radarKey symbols) now with
  | (some (CacheVal.radar r), st1) => (r, st1)
  | (some _, st1) => (emptyRadar, st1)
  | (none, st1) =>
    let p := getWhaleAlerts env st1 symbols 20 now
    let alerts := p.1
    let cluster_alerts := alerts.filter (fun a => a.alert_type = "cluster")
    let bullish_count := (alerts.filter (fun a => a.signal = "bullish")).length
    let bearish_count := (alerts.filter (fun a => a.signal = "bearish")).length
    let result : RadarResult :=
      { timestamp := now
        total_signals := alerts.length
        bullish := bullish_count
        bearish := bearish_count
        sentiment :=
          if bullish_count > bearish_count then "bullish"
          else if bearish_count > bullish_count then "bearish"
          else "neutral"
        alerts := alerts
        clusters := cluster_alerts
        blips := formatRadarBlips alerts }
    (result, setCached p.2 (radarKey symbols) (CacheVal.radar result) now)

-- ===========================================================================
-- CACHE LEMMAS
-- ===========================================================================

theorem find?_filter_of_imp {α : Type} (p q : α → Bool) (l : List α)
    (h : ∀ x, p x = true → q x = true) :
    (l.filter q).find? p = l.find? p := by
  induction l with
  | nil => rfl
  | cons a l ih =>
    rw [List.filter_cons]
    by_cases hq : q a = true
    · rw [if_pos hq]
      by_cases hp : p a = true
      · rw [List.find?_cons_of_pos _ hp, List.find?_cons_of_pos _ hp]
      · rw [List.find?_cons_of_neg _ hp, List.find?_cons_of_neg _ hp, ih]
    · have hp : ¬ p a = true := fun hpa => hq (h a hpa)
      rw [if_neg hq, ih, List.find?_cons_of_neg _ hp]

theorem alookup_aset_self {α : Type} (l : List (String × α × Int))
    (k : String) (v : α) (t : Int) :
    alookup (aset l k v t) k = some (v, t) := by
  simp [alookup, aset, List.find?]

theorem alookup_aset_ne {α : Type} (l : List (String × α × Int))
    (k k' : String) (v : α) (t : Int) (h : k' ≠ k) :
    alookup (aset l k v t) k' = alookup l k' := by
  unfold alookup aset
  rw [List.find?]
  have hne : ((k, v, t).1 == k') = false := by
    simp only [beq_eq_false_iff_ne, ne_eq]
    exact fun hk => h hk.symm
  rw [hne]
  rw [find?_filter_of_imp]
  intro x hx
  simp only [beq_iff_eq] at hx
  simp only [bne_iff_ne, ne_eq, hx]
  exact h

theorem getCachedFile_snd_file {α : Type} (s : CacheState α) (k : String)
    (t : Int) : ((getCachedFile s k t).2).file = s.file := by
  unfold getCachedFile
  cases hf : alookup s.file k with
  | none => rfl
  | some e =>
    obtain ⟨d, m⟩ := e
    by_cases hm : t - m < CACHE_DURATION <;> simp [hm]

theorem getCached_snd_file {α : Type} (s : CacheState α) (k : String)
    (t : Int) : ((getCached s k t).2).file = s.file := by
  unfold getCached
  cases hm : alookup s.mem k with
  | none => exact getCachedFile_snd_file s k t
  | some e =>
    obtain ⟨d, tt⟩ := e
    by_cases ht : t - tt < CACHE_DURATION
    · simp [ht]
    · simp [ht, getCachedFile_snd_file]

theorem getCachedFile_fst_none {α : Type} (s : CacheState α) (k : String)
    (t : Int) (h : (getCachedFile s k t).1 = none) :
    (getCachedFile s k t).2 = s := by
  unfold getCachedFile at h ⊢
  cases hf : alookup s.file k with
  | none => rfl
  | some e =>
    obtain ⟨d, m⟩ := e
    rw [hf] at h
    by_cases hm : t - m < CACHE_DURATION
    · simp [hm] at h
    · simp [hm]

/-- A cache miss leaves the cache state untouched (the memory tier is
repopulated only on a file hit, which is not a miss). -/
theorem getCached_fst_none {α : Type} (s : CacheState α) (k : String)
    (t : Int) (h : (getCached s k t).1 = none) :
    (getCached s k t).2 = s := by
  unfold getCached at h ⊢
  cases hm : alookup s.mem k with
  | none =>
    rw [hm] at h
    exact getCachedFile_fst_none s k t h
  | some e =>
    obtain ⟨d, tt⟩ := e
    rw [hm] at h
    by_cases ht : t - tt < CACHE_DURATION
    · simp [ht] at h
    · simp only [ht, if_false] at h ⊢
      exact getCachedFile_fst_none s k t h

/-- Reads of one key never disturb the memory tier at another key. -/
theorem getCached_mem_frame {α : Type} (s : CacheState α) (k k' : String)
    (t : Int) (h : k' ≠ k) :
    alookup ((getCached s k t).2).mem k' = alookup s.mem k' := by
  have hfile : ∀ u : CacheState α,
      alookup ((getCachedFile u k t).2).mem k' = alookup u.mem k' := by
    intro u
    unfold getCachedFile
    cases hf : alookup u.file k with
    | none => rfl
    | some e =>
      obtain ⟨d, m⟩ := e
      by_cases hm : t - m < CACHE_DURATION
      · simp [hm, alookup_aset_ne _ _ _ _ _ h]
      · simp [hm]
  unfold getCached
  cases hm : alookup s.mem k with
  | none => exact hfile s
  | some e =>
    obtain ⟨d, tt⟩ := e
    by_cases ht : t - tt < CACHE_DURATION
    · simp [ht]
    · simp [ht, hfile]

-- ===========================================================================
-- CLAIM C8: TTL cache contract.
-- ===========================================================================

/-- C8: a value set at time T is returned unchanged by a get at any time
with elapsed time < TTL (300 s) and treated as absent at or beyond the
TTL; a write populates both tiers; and a fresh durable (file) hit behind
a cold or expired memory tier returns the value and repopulates the
memory tier with it. -/
theorem cache_ttl_contract {α : Type} (s : CacheState α) (k : String)
    (v d : α) (T tm m t : Int) :
    (t - T < 300 → (getCached (setCached s k v T) k t).1 = some v) ∧
    (300 ≤ t - T → (getCached (setCached s k v T) k t).1 = none) ∧
    (alookup (setCached s k v T).mem k = some (v, T) ∧
     alookup (setCached s k v T).file k = some (v, T)) ∧
    (alookup s.mem k = none → alookup s.file k = some (v, m) → t - m < 300 →
       (getCached s k t).1 = some v ∧
       alookup ((getCached s k t).2).mem k = some (v, m)) ∧
    (alookup s.mem k = some (d, tm) → 300 ≤ t - tm →
     alookup s.file k = some (v, m) → t - m < 300 →
       (getCached s k t).1 = some v ∧
       alookup ((getCached s k t).2).mem k = some (v, m)) := by
  have hset_mem : alookup (setCached s k v T).mem k = some (v, T) :=
    alookup_aset_self _ _ _ _
  have hset_file : alookup (setCached s k v T).file k = some (v, T) :=
    alookup_aset_self _ _ _ _
  refine ⟨?_, ?_, ⟨hset_mem, hset_file⟩, ?_, ?_⟩
  · intro hfresh
    simp [getCached, hset_mem, CACHE_DURATION, hfresh]
  · intro hstale
    have h1 : ¬ (t - T < (300 : Int)) := by omega
    simp [getCached, getCachedFile, hset_mem, hset_file, CACHE_DURATION, h1]
  · intro hmem hfile hfresh
    simp [getCached, getCachedFile, hmem, hfile, CACHE_DURATION, hfresh,
      alookup_aset_self]
  · intro hmem hstale hfile hfresh
    have h1 : ¬ (t - tm < (300 : Int)) := by omega
    simp [getCached, getCachedFile, hmem, hfile, CACHE_DURATION, h1, hfresh,
      alookup_aset_self]

/-- Witness for C8 at a concrete cache: value 7 written at time 0 is
readable at time 299, absent at time 300, and a file-only entry written
at time 10 is served and repopulated at time 100. -/
theorem cache_ttl_contract_witness :
    ((299 : Int) - 0 < 300 ∧
       (getCached (setCached ({} : CacheState ℕ) "k" 7 0) "k" 299).1 = some 7) ∧
    ((300 : Int) ≤ 300 - 0 ∧
       (getCached (setCached ({} : CacheState ℕ) "k" 7 0) "k" 300).1 = none) ∧
    (alookup (({ mem := [], file := [("k", 7, 10)] } : CacheState ℕ)).mem "k" = none ∧
       (getCached ({ mem := [], file := [("k", 7, 10)] } : CacheState ℕ) "k" 100).1 = some 7) := by
  refine ⟨⟨by decide, ?_⟩, ⟨by decide, ?_⟩, ⟨by decide, ?_⟩⟩
  · exact (cache_ttl_contract ({} : CacheState ℕ) "k" 7 7 0 0 0 299).1 (by decide)
  · exact ((cache_ttl_contract ({} : CacheState ℕ) "k" 7 7 0 0 0 300).2.1) (by decide)
  · exact ((cache_ttl_contract ({ mem := [], file := [("k", 7, 10)] } : CacheState ℕ)
      "k" 7 7 0 0 10 100).2.2.2.1 (by decide) (by decide) (by decide)).1

-- ===========================================================================
-- CLAIM C6: classification tiers.
-- ===========================================================================

/-- C6: significance is a pure function of the enriched percentage
fields (absent treated as 0) with the stated strict boundaries, and
magnitude is a pure function of the notional with each boundary closed
on the low end — notional exactly 10,000,000 is "massive". -/
theorem classification_tiers (t : InsiderTrade) :
    (t.calculate_significance = "CRITICAL" ↔
       pyOr0 t.pct_of_outstanding > 1 ∨ pyOr0 t.pct_of_market_cap > 0.5) ∧
    (t.calculate_significance = "HIGH" ↔
       ¬ (pyOr0 t.pct_of_outstanding > 1 ∨ pyOr0 t.pct_of_market_cap > 0.5) ∧
       (pyOr0 t.pct_of_outstanding > 0.5 ∨ pyOr0 t.pct_of_market_cap > 0.2)) ∧
    (t.calculate_significance = "MEDIUM" ↔
       ¬ (pyOr0 t.pct_of_outstanding > 1 ∨ pyOr0 t.pct_of_market_cap > 0.5) ∧
       ¬ (pyOr0 t.pct_of_outstanding > 0.5 ∨ pyOr0 t.pct_of_market_cap > 0.2) ∧
       pyOr0 t.pct_of_outstanding > 0.1) ∧
    (t.calculate_significance = "LOW" ↔
       ¬ (pyOr0 t.pct_of_outstanding > 1 ∨ pyOr0 t.pct_of_market_cap > 0.5) ∧
       ¬ (pyOr0 t.pct_of_outstanding > 0.5 ∨ pyOr0 t.pct_of_market_cap > 0.2) ∧
       ¬ pyOr0 t.pct_of_outstanding > 0.1) ∧
    (pyOr0 none = 0) ∧
    (t.signal_strength = "massive" ↔ t.total_value ≥ 10000000) ∧
    (t.signal_strength = "large" ↔
       ¬ t.total_value ≥ 10000000 ∧ t.total_value ≥ 1000000) ∧
    (t.signal_strength = "significant" ↔
       ¬ t.total_value ≥ 10000000 ∧ ¬ t.total_value ≥ 1000000 ∧
       t.total_value ≥ 100000) ∧
    (t.signal_strength = "minor" ↔
       ¬ t.total_value ≥ 10000000 ∧ ¬ t.total_value ≥ 1000000 ∧
       ¬ t.total_value ≥ 100000) ∧
    (t.total_value = 10000000 → t.signal_strength = "massive") := by
  simp only [InsiderTrade.calculate_significance, InsiderTrade.signal_strength]
  refine ⟨?_, ?_, ?_, ?_, rfl, ?_, ?_, ?_, ?_, ?_⟩ <;>
    split_ifs <;>
    simp_all <;>
    linarith

/-- A minimal concrete trade for witnesses: given optional percentage
fields and a notional value. -/
def sampleTrade (po pc : Option ℚ) (tv : ℚ) : InsiderTrade :=
  { symbol := "XYZ"
    company_name := "XYZ Corp"
    reporter_name := "Jane Roe"
    reporter_title := "CEO"
    transaction_type := "P"
    transaction_date := 0
    shares_transacted := 1
    price := 1
    total_value := tv
    pct_of_outstanding := po
    pct_of_market_cap := pc }

/-- Witness for C6 at concrete trades: pct_of_outstanding = 1.5 is
CRITICAL; a 54,500,000 notional is massive; exactly 10,000,000 is
massive (closed low end); 9,999,999.99 is large. -/
theorem classification_tiers_witness :
    (sampleTrade (some 1.5) none 0).calculate_significance = "CRITICAL" ∧
    (sampleTrade none none 54500000).signal_strength = "massive" ∧
    (sampleTrade none none 10000000).signal_strength = "massive" ∧
    (sampleTrade none none (9999999 + 99/100)).signal_strength = "large" := by
  refine ⟨?_, ?_, ?_, ?_⟩
  · exact ((classification_tiers (sampleTrade (some 1.5) none 0)).1).mpr
      (by norm_num [sampleTrade, pyOr0])
  · exact ((classification_tiers (sampleTrade none none 54500000)).2.2.2.2.2.1).mpr
      (by norm_num [sampleTrade])
  · exact (classification_tiers (sampleTrade none none 10000000)).2.2.2.2.2.2.2.2.2
      (by norm_num [sampleTrade])
  · exact ((classification_tiers
        (sampleTrade none none (9999999 + 99/100))).2.2.2.2.2.2.1).mpr
      (by constructor <;> norm_num [sampleTrade])

-- ===========================================================================
-- CLAIM C9: cache-key canonicalization.
-- ===========================================================================

/-- Two lists sorted by key whose key lists have no duplicates are equal
whenever they are permutations of each other. -/
theorem eq_of_perm_sorted_nodupkeys :
    ∀ l1 l2 : List (String × Option String), l1.Perm l2 →
      l1.Sorted kwLe → l2.Sorted kwLe → (l1.map Prod.fst).Nodup → l1 = l2 := by
  intro l1
  induction l1 with
  | nil =>
    intro l2 hp _ _ _
    exact (hp.nil_eq).symm |>.symm
  | cons a t1 ih =>
    intro l2 hp hs1 hs2 hnd
    cases l2 with
    | nil => exact absurd hp.symm.nil_eq (by simp)
    | cons b t2 =>
      rcases List.sorted_cons.mp hs1 with ⟨ha1, ht1s⟩
      rcases List.sorted_cons.mp hs2 with ⟨hb2, ht2s⟩
      have hab : a = b := by
        have hain : a ∈ b :: t2 := hp.mem_iff.mp (List.mem_cons_self a t1)
        have hbin : b ∈ a :: t1 := hp.symm.mem_iff.mp (List.mem_cons_self b t2)
        rcases List.mem_cons.mp hain with h | h
        · exact h
        rcases List.mem_cons.mp hbin with h' | h'
        · exact h'.symm
        have h1 : kwLe b a := hb2 a h
        have h2 : kwLe a b := ha1 b h'
        have hfst : a.1 = b.1 := strLe_antisymm a.1 b.1 h2 h1
        have : a.1 ∈ t1.map Prod.fst := by
          rw [hfst]
          exact List.mem_map_of_mem Prod.fst h'
        rcases List.nodup_cons.mp hnd with ⟨hna, _⟩
        exact absurd this hna
      subst hab
      have hpt : t1.Perm t2 := hp.cons_inv
      have : t1 = t2 :=
        ih t2 hpt ht1s ht2s (List.nodup_cons.mp hnd).2
      rw [this]

/-- C9: the cache key is insensitive to keyword-argument order and to
explicitly supplied None arguments: any two keyword-argument dicts (no
duplicate keys) with the same multiset of non-None "k=v" bindings
generate the same key. -/
theorem cache_key_canonical (name : String)
    (kw1 kw2 : List (String × Option String))
    (h1 : (kw1.map Prod.fst).Nodup) (_hnd2 : (kw2.map Prod.fst).Nodup)
    (hsame : (kw1.filter (fun p => p.2 ≠ none)).Perm
       (kw2.filter (fun p => p.2 ≠ none))) :
    getCacheKey name kw1 = getCacheKey name kw2 := by
  have hperm : ((List.insertionSort kwLe kw1).filter (fun p => p.2 ≠ none)).Perm
      ((List.insertionSort kwLe kw2).filter (fun p => p.2 ≠ none)) := by
    refine (((List.perm_insertionSort kwLe kw1).filter _).trans hsame).trans ?_
    exact ((List.perm_insertionSort kwLe kw2).filter _).symm
  have hsort1 : ((List.insertionSort kwLe kw1).filter
      (fun p => p.2 ≠ none)).Sorted kwLe :=
    (List.sorted_insertionSort kwLe kw1).filter _
  have hsort2 : ((List.insertionSort kwLe kw2).filter
      (fun p => p.2 ≠ none)).Sorted kwLe :=
    (List.sorted_insertionSort kwLe kw2).filter _
  have hnd : (((List.insertionSort kwLe kw1).filter
      (fun p => p.2 ≠ none)).map Prod.fst).Nodup := by
    have hnd1 : ((List.insertionSort kwLe kw1).map Prod.fst).Nodup :=
      (((List.perm_insertionSort kwLe kw1).map Prod.fst).nodup_iff).mpr h1
    exact hnd1.sublist (((List.filter_sublist _)).map Prod.fst)
  have hf : (List.insertionSort kwLe kw1).filter (fun p => p.2 ≠ none) =
      (List.insertionSort kwLe kw2).filter (fun p => p.2 ≠ none) :=
    eq_of_perm_sorted_nodupkeys _ _ hperm hsort1 hsort2 hnd
  simp only [getCacheKey]
  rw [hf]

/-- Witness for C9: `f(symbol="AAPL", limit=50)` and
`f(limit=50, extra=None, symbol="AAPL")` generate the same key. -/
theorem cache_key_canonical_witness :
    (([("symbol", some "AAPL"), ("limit", some "50")].map
        (Prod.fst (α := String) (β := Option String))).Nodup ∧
     ([("limit", some "50"), ("extra", none), ("symbol", some "AAPL")].map
        (Prod.fst (α := String) (β := Option String))).Nodup) ∧
    getCacheKey "insider_trades" [("symbol", some "AAPL"), ("limit", some "50")] =
      getCacheKey "insider_trades"
        [("limit", some "50"), ("extra", none), ("symbol", some "AAPL")] := by
  refine ⟨⟨by decide, by decide⟩, ?_⟩
  exact cache_key_canonical "insider_trades" _ _ (by decide) (by decide) (by decide)

-- ===========================================================================
-- CLAIMS C4 and C5: cluster detection.
-- ===========================================================================

theorem dedup_length_le_one {α : Type} [DecidableEq α] (l : List α)
    (h : ∀ x ∈ l, ∀ y ∈ l, x = y) : l.dedup.length ≤ 1 := by
  induction l with
  | nil => simp
  | cons a t ih =>
    by_cases ha : a ∈ t
    · rw [List.dedup_cons_of_mem ha]
      exact ih (fun x hx y hy => h x (List.mem_cons_of_mem a hx) y (List.mem_cons_of_mem a hy))
    · rw [List.dedup_cons_of_not_mem ha]
      cases t with
      | nil => simp
      | cons b t2 =>
        exact absurd
          ((h b (by simp) a (by simp)) ▸ List.mem_cons_self b t2) ha

/-- C4: whenever both the buy side and the sell side of a symbol's
in-window history independently reach the distinct-actor minimum
(at least 1), the detector returns exactly one cluster; it is the sell
cluster when the sell side's aggregate notional is strictly larger, the
buy cluster when the buy side's is strictly larger, and the returned
cluster carries that side's aggregate notional and distinct-actor count.
(On an exact tie the buy cluster is kept.) -/
theorem cluster_both_sides_larger_notional_wins (symbol : String)
    (trades : List InsiderTrade) (days min_insiders : ℕ) (now : Int)
    (hmin : 1 ≤ min_insiders)
    (hb : min_insiders ≤ (uniqueBuyers trades days now).length)
    (hs : min_insiders ≤ (uniqueSellers trades days now).length) :
    ∃ c, detectClusterFrom symbol trades days min_insiders now = some c ∧
      (sellSideTotal trades days now > buySideTotal trades days now →
         c.activity_type = "cluster_sell" ∧
         c.total_value = sellSideTotal trades days now ∧
         c.insider_count = (uniqueSellers trades days now).length) ∧
      (buySideTotal trades days now > sellSideTotal trades days now →
         c.activity_type = "cluster_buy" ∧
         c.total_value = buySideTotal trades days now ∧
         c.insider_count = (uniqueBuyers trades days now).length) ∧
      (sellSideTotal trades days now ≤ buySideTotal trades days now →
         c.activity_type = "cluster_buy") := by
  have htr : trades ≠ [] := by
    intro he
    rw [he] at hb
    simp [uniqueBuyers, buyTrades, recentTrades] at hb
    omega
  have hbuytv :
      (mkCluster symbol trades (buyTrades trades days now) "cluster_buy"
        (uniqueBuyers trades days now)).total_value =
      buySideTotal trades days now := rfl
  simp only [detectClusterFrom, if_neg htr, ge_iff_le, if_pos hb, if_pos hs, hbuytv]
  by_cases hcmp : sellSideTotal trades days now > buySideTotal trades days now
  · rw [if_pos hcmp]
    refine ⟨_, rfl, fun _ => ⟨rfl, rfl, rfl⟩, fun h => absurd hcmp (by linarith), fun h => ?_⟩
    linarith
  · rw [if_neg hcmp]
    refine ⟨_, rfl, fun h => absurd h hcmp, fun _ => ⟨rfl, rfl, rfl⟩, fun _ => rfl⟩

/-- Witness for C4: two distinct buyers (total 300,000) and two distinct
sellers (total 900,000) in the 30-day window with minActors = 2 — the
sell cluster wins with the sell side's aggregate notional. -/
def c4Trade (name ttype : String) (tv : ℚ) : InsiderTrade :=
  { symbol := "XYZ"
    company_name := "XYZ Corp"
    reporter_name := name
    reporter_title := "Officer"
    transaction_type := ttype
    transaction_date := 100
    shares_transacted := 1
    price := 1
    total_value := tv }

theorem cluster_both_sides_witness :
    (1 ≤ 2 ∧
     2 ≤ (uniqueBuyers [c4Trade "A" "P" 100000, c4Trade "B" "P" 200000,
            c4Trade "C" "S" 400000, c4Trade "D" "S" 500000] 30 200).length ∧
     2 ≤ (uniqueSellers [c4Trade "A" "P" 100000, c4Trade "B" "P" 200000,
            c4Trade "C" "S" 400000, c4Trade "D" "S" 500000] 30 200).length) ∧
    ∃ c, detectClusterFrom "XYZ"
        [c4Trade "A" "P" 100000, c4Trade "B" "P" 200000,
         c4Trade "C" "S" 400000, c4Trade "D" "S" 500000] 30 2 200 = some c ∧
      (sellSideTotal [c4Trade "A" "P" 100000, c4Trade "B" "P" 200000,
          c4Trade "C" "S" 400000, c4Trade "D" "S" 500000] 30 200 >
        buySideTotal [c4Trade "A" "P" 100000, c4Trade "B" "P" 200000,
          c4Trade "C" "S" 400000, c4Trade "D" "S" 500000] 30 200 →
        c.activity_type = "cluster_sell" ∧
        c.total_value = sellSideTotal [c4Trade "A" "P" 100000, c4Trade "B" "P" 200000,
          c4Trade "C" "S" 400000, c4Trade "D" "S" 500000] 30 200 ∧
        c.insider_count = (uniqueSellers [c4Trade "A" "P" 100000, c4Trade "B" "P" 200000,
          c4Trade "C" "S" 400000, c4Trade "D" "S" 500000] 30 200).length) := by
  have hb : 2 ≤ (uniqueBuyers [c4Trade "A" "P" 100000, c4Trade "B" "P" 200000,
      c4Trade "C" "S" 400000, c4Trade "D" "S" 500000] 30 200).length := by
    decide
  have hs : 2 ≤ (uniqueSellers [c4Trade "A" "P" 100000, c4Trade "B" "P" 200000,
      c4Trade "C" "S" 400000, c4Trade "D" "S" 500000] 30 200).length := by
    decide
  refine ⟨⟨by omega, hb, hs⟩, ?_⟩
  obtain ⟨c, hc, h1, _, _⟩ :=
    cluster_both_sides_larger_notional_wins "XYZ"
      [c4Trade "A" "P" 100000, c4Trade "B" "P" 200000,
       c4Trade "C" "S" 400000, c4Trade "D" "S" 500000] 30 2 200 (by omega) hb hs
  exact ⟨c, hc, h1⟩

/-- C5: cluster qualification counts distinct actor names per side, not
transactions.  If every in-window buy is by one single actor, detection
with minActors = 2 never returns a buy cluster (however many trades that
actor made); symmetrically for the sell side. -/
theorem cluster_distinct_actors_required (symbol : String)
    (trades : List InsiderTrade) (days : ℕ) (now : Int) :
    ((∀ t1 ∈ buyTrades trades days now, ∀ t2 ∈ buyTrades trades days now,
        t1.reporter_name = t2.reporter_name) →
      ∀ c, detectClusterFrom symbol trades days 2 now = some c →
        c.activity_type ≠ "cluster_buy") ∧
    ((∀ t1 ∈ sellTrades trades days now, ∀ t2 ∈ sellTrades trades days now,
        t1.reporter_name = t2.reporter_name) →
      ∀ c, detectClusterFrom symbol trades days 2 now = some c →
        c.activity_type ≠ "cluster_sell") := by
  by_cases htr : trades = []
  · simp [detectClusterFrom, htr]
  constructor
  · intro hone c hc
    have hlen : (uniqueBuyers trades days now).length ≤ 1 := by
      apply dedup_length_le_one
      intro x hx y hy
      obtain ⟨t1, ht1, rfl⟩ := List.mem_map.mp hx
      obtain ⟨t2, ht2, rfl⟩ := List.mem_map.mp hy
      exact hone t1 ht1 t2 ht2
    have hnb : ¬ ((uniqueBuyers trades days now).length ≥ 2) := by omega
    simp only [detectClusterFrom, if_neg htr, if_neg hnb] at hc
    by_cases hsell : (uniqueSellers trades days now).length ≥ 2
    · rw [if_pos hsell] at hc
      simp only [Option.some.injEq] at hc
      rw [← hc]
      simp [mkCluster]
    · rw [if_neg hsell] at hc
      exact absurd hc (by simp)
  · intro hone c hc
    have hlen : (uniqueSellers trades days now).length ≤ 1 := by
      apply dedup_length_le_one
      intro x hx y hy
      obtain ⟨t1, ht1, rfl⟩ := List.mem_map.mp hx
      obtain ⟨t2, ht2, rfl⟩ := List.mem_map.mp hy
      exact hone t1 ht1 t2 ht2
    have hns : ¬ ((uniqueSellers trades days now).length ≥ 2) := by omega
    simp only [detectClusterFrom, if_neg htr, if_neg hns] at hc
    by_cases hbuy : (uniqueBuyers trades days now).length ≥ 2
    · rw [if_pos hbuy] at hc
      simp only [Option.some.injEq] at hc
      rw [← hc]
      simp [mkCluster]
    · rw [if_neg hbuy] at hc
      exact absurd hc (by simp)

/-- Witness for C5: three in-window buy trades all by the same actor
satisfy the one-actor hypothesis and detection with minActors = 2
returns nothing (so in particular no buy cluster). -/
theorem cluster_distinct_actors_witness :
    (∀ t1 ∈ buyTrades [c4Trade "A" "P" 100000, c4Trade "A" "P" 200000,
        c4Trade "A" "P" 400000] 30 200,
       ∀ t2 ∈ buyTrades [c4Trade "A" "P" 100000, c4Trade "A" "P" 200000,
        c4Trade "A" "P" 400000] 30 200, t1.reporter_name = t2.reporter_name) ∧
    (∀ c, detectClusterFrom "XYZ" [c4Trade "A" "P" 100000,
        c4Trade "A" "P" 200000, c4Trade "A" "P" 400000] 30 2 200 = some c →
      c.activity_type ≠ "cluster_buy") := by
  have h1 : ∀ t1 ∈ buyTrades [c4Trade "A" "P" 100000, c4Trade "A" "P" 200000,
      c4Trade "A" "P" 400000] 30 200,
      ∀ t2 ∈ buyTrades [c4Trade "A" "P" 100000, c4Trade "A" "P" 200000,
        c4Trade "A" "P" 400000] 30 200, t1.reporter_name = t2.reporter_name := by
    decide
  exact ⟨h1,
    (cluster_distinct_actors_required "XYZ"
      [c4Trade "A" "P" 100000, c4Trade "A" "P" 200000, c4Trade "A" "P" 400000]
      30 200).1 h1⟩

-- ===========================================================================
-- CLAIM C3: radar projection.
-- ===========================================================================

theorem qmod360_of_nonneg_lt (x : ℚ) (h1 : 0 ≤ x) (h2 : x < 360) :
    qmod360 x = x := by
  unfold qmod360
  have hy1 : (0 : Int) ≤ (x / 360).floor := by
    apply Rat.le_floor.mpr
    push_cast
    positivity
  have hy2 : ¬ ((1 : Int) ≤ (x / 360).floor) := by
    intro h
    have hle : ((1 : Int) : ℚ) ≤ x / 360 := Rat.le_floor.mp h
    have h360 : (0 : ℚ) < 360 := by norm_num
    rw [le_div_iff₀ h360] at hle
    push_cast at hle
    linarith
  have hz : (x / 360).floor = 0 := by omega
  rw [hz]
  push_cast
  ring

/-- An alert with magnitude "minor" for the radar claims. -/
def minorAlert : WhaleAlert :=
  { alert_type := "insider"
    symbol := "XYZ"
    headline := "h"
    description := "d"
    signal := "bullish"
    magnitude := "minor"
    timestamp := 0
    source := "SEC Form 4"
    details := AlertDetails.trade (sampleTrade none none 50000) }

/-- Counterexample for C3: a blip of magnitude "minor" gets weight 0.5
(the unmapped default), hence strength 0.5 and distance 0.7 — not the
weight 0.4 (strength 0.4, distance 0.76) the claim assigns to minor. -/
theorem radar_minor_weight_cex :
    (formatRadarBlips [minorAlert]).map (fun b => (b.strength, b.distance)) =
      [((0.5 : ℚ), (0.7 : ℚ))] ∧
    ((0.5 : ℚ) ≠ 0.4) ∧ ((0.7 : ℚ) ≠ 1 - 0.4 * 0.6) := by
  refine ⟨?_, by norm_num, by norm_num⟩
  have hm : magnitude_map "minor" = none := rfl
  norm_num [formatRadarBlips, minorAlert, hm]

/-- C3 (amended): the projector emits `min(len, 20) <= 20` blips; blip i
takes its weight from the fixed table massive=1.0, large=0.8,
significant=0.6, moderate=0.4 with every other magnitude — including
"minor" — falling to the default 0.5; strength = weight, distance =
1 - weight * 0.6, and angle = i * 360 / N for N the number of blips. -/
theorem radar_blips_projection (alerts : List WhaleAlert) (i : ℕ)
    (h : i < min alerts.length 20) :
    (formatRadarBlips alerts).length = min alerts.length 20 ∧
    (formatRadarBlips alerts).length ≤ 20 ∧
    (magnitude_map "massive" = some 1 ∧ magnitude_map "large" = some 0.8 ∧
     magnitude_map "significant" = some 0.6 ∧ magnitude_map "moderate" = some 0.4 ∧
     magnitude_map "minor" = none) ∧
    ((formatRadarBlips alerts)[i]?.map (fun b => (b.strength, b.distance, b.angle)) =
      (alerts[i]?).map (fun a =>
        ((magnitude_map a.magnitude).getD 0.5,
         1 - (magnitude_map a.magnitude).getD 0.5 * 0.6,
         (i : ℚ) * 360 / ((min alerts.length 20 : ℕ) : ℚ)))) := by
  have hlen : (formatRadarBlips alerts).length = min alerts.length 20 := by
    simp [formatRadarBlips, List.length_take, Nat.min_comm]
  refine ⟨hlen, by omega, ⟨rfl, rfl, rfl, rfl, rfl⟩, ?_⟩
  have hmax : max (min alerts.length 20) 1 = min alerts.length 20 := by omega
  have hi20 : i < 20 := by omega
  have hilen : i < alerts.length := by omega
  have htake : (alerts.take 20)[i]? = alerts[i]? := by
    rw [List.getElem?_take]
    rw [if_pos hi20]
  have hget : alerts[i]? = some (alerts.get ⟨i, hilen⟩) :=
    List.getElem?_eq_getElem hilen
  have hNQ : (0 : ℚ) < ((min alerts.length 20 : ℕ) : ℚ) := by
    have hN : 0 < min alerts.length 20 := by omega
    exact_mod_cast hN
  have hangle :
      qmod360 ((i : ℚ) * 360 / ((max (min alerts.length 20) 1 : ℕ) : ℚ)) =
        (i : ℚ) * 360 / ((min alerts.length 20 : ℕ) : ℚ) := by
    rw [hmax]
    apply qmod360_of_nonneg_lt
    · positivity
    · rw [div_lt_iff₀ hNQ]
      have hiN : (i : ℚ) < ((min alerts.length 20 : ℕ) : ℚ) := by
        exact_mod_cast h
      calc (i : ℚ) * 360 = 360 * (i : ℚ) := by ring
        _ < 360 * ((min alerts.length 20 : ℕ) : ℚ) := by linarith
  simp [formatRadarBlips, List.getElem?_map, List.getElem?_enum, htake, hget]
  push_cast at hangle
  exact hangle

/-- Witness for C3 at the one-alert list: index 0 of the projection of
`[minorAlert]`. -/
theorem radar_blips_projection_witness :
    (0 < min [minorAlert].length 20) ∧
    ((formatRadarBlips [minorAlert]).length = min [minorAlert].length 20 ∧
     (formatRadarBlips [minorAlert]).length ≤ 20 ∧
     (magnitude_map "massive" = some 1 ∧ magnitude_map "large" = some 0.8 ∧
      magnitude_map "significant" = some 0.6 ∧ magnitude_map "moderate" = some 0.4 ∧
      magnitude_map "minor" = none) ∧
     ((formatRadarBlips [minorAlert])[0]?.map
         (fun b => (b.strength, b.distance, b.angle)) =
       ([minorAlert][0]?).map (fun a =>
         ((magnitude_map a.magnitude).getD 0.5,
          1 - (magnitude_map a.magnitude).getD 0.5 * 0.6,
          ((0 : ℕ) : ℚ) * 360 / ((min [minorAlert].length 20 : ℕ) : ℚ))))) :=
  ⟨by decide, radar_blips_projection [minorAlert] 0 (by decide)⟩

-- ===========================================================================
-- CLAIM C7: enrichment quote cap.
-- ===========================================================================

theorem quoteStep_mem (env : Env) (now : Int)
    (acc : List (String × ℚ × Int) × CacheState CacheVal) (s : String)
    (e : String × ℚ × Int) (he : e ∈ (quoteStep env now acc s).1) :
    e ∈ acc.1 ∨ e.1 = s := by
  rcases hgc : getCached acc.2 ("quote_" ++ s) now with ⟨o, st1⟩
  simp only [quoteStep, hgc] at he
  match o with
  | none =>
    cases hf : env.fetchQuote s with
    | none =>
      simp only [hf] at he
      exact Or.inl he
    | some q =>
      rw [hf] at he
      rcases List.mem_append.mp he with h | h
      · exact Or.inl h
      · simp at h
        right
        rw [h]
  | some (CacheVal.quote mc so) =>
    rcases List.mem_append.mp he with h | h
    · exact Or.inl h
    · simp at h
      right
      rw [h]
  | some (CacheVal.trades l) => exact Or.inl he
  | some (CacheVal.holdings l) => exact Or.inl he
  | some (CacheVal.alerts l) => exact Or.inl he
  | some (CacheVal.radar r) => exact Or.inl he

theorem quoteFold_keys (env : Env) (now : Int) (S : List String) :
    ∀ (l : List String) (acc : List (String × ℚ × Int) × CacheState CacheVal),
      (∀ e ∈ acc.1, e.1 ∈ S) → (∀ s ∈ l, s ∈ S) →
      ∀ e ∈ (l.foldl (quoteStep env now) acc).1, e.1 ∈ S := by
  intro l
  induction l with
  | nil => intro acc hacc _ e he; exact hacc e he
  | cons s l ih =>
    intro acc hacc hl e he
    rw [List.foldl_cons] at he
    refine ih (quoteStep env now acc s) ?_ (fun x hx => hl x (List.mem_cons_of_mem s hx)) e he
    intro e' he'
    rcases quoteStep_mem env now acc s e' he' with h | h
    · exact hacc e' h
    · rw [h]
      exact hl s (List.mem_cons_self s l)

theorem quoteStep_frame (env : Env) (now : Int)
    (acc : List (String × ℚ × Int) × CacheState CacheVal) (s : String)
    (k : String) (hk : k ≠ "quote_" ++ s) :
    alookup ((quoteStep env now acc s).2).mem k = alookup acc.2.mem k ∧
    alookup ((quoteStep env now acc s).2).file k = alookup acc.2.file k := by
  have hmem : alookup ((getCached acc.2 ("quote_" ++ s) now).2).mem k =
      alookup acc.2.mem k := getCached_mem_frame acc.2 ("quote_" ++ s) k now hk
  have hfile : ((getCached acc.2 ("quote_" ++ s) now).2).file = acc.2.file :=
    getCached_snd_file acc.2 ("quote_" ++ s) now
  rcases hgc : getCached acc.2 ("quote_" ++ s) now with ⟨o, st1⟩
  rw [hgc] at hmem hfile
  simp only [quoteStep, hgc]
  match o with
  | none =>
    cases hf : env.fetchQuote s with
    | none => exact ⟨hmem, by rw [hfile]⟩
    | some q =>
      simp only [setCached]
      constructor
      · rw [alookup_aset_ne _ _ _ _ _ hk]
        exact hmem
      · rw [alookup_aset_ne _ _ _ _ _ hk, hfile]
  | some (CacheVal.quote mc so) => exact ⟨hmem, by rw [hfile]⟩
  | some (CacheVal.trades l) => exact ⟨hmem, by rw [hfile]⟩
  | some (CacheVal.holdings l) => exact ⟨hmem, by rw [hfile]⟩
  | some (CacheVal.alerts l) => exact ⟨hmem, by rw [hfile]⟩
  | some (CacheVal.radar r) => exact ⟨hmem, by rw [hfile]⟩

theorem quoteFold_frame (env : Env) (now : Int) (k : String) :
    ∀ (l : List String) (acc : List (String × ℚ × Int) × CacheState CacheVal),
      (∀ s ∈ l, k ≠ "quote_" ++ s) →
      alookup ((l.foldl (quoteStep env now) acc).2).mem k = alookup acc.2.mem k ∧
      alookup ((l.foldl (quoteStep env now) acc).2).file k = alookup acc.2.file k := by
  intro l
  induction l with
  | nil => intro acc _; exact ⟨rfl, rfl⟩
  | cons s l ih =>
    intro acc hl
    rw [List.foldl_cons]
    have hstep := quoteStep_frame env now acc s k (hl s (List.mem_cons_self s l))
    have hrest := ih (quoteStep env now acc s)
      (fun x hx => hl x (List.mem_cons_of_mem s hx))
    exact ⟨hrest.1.trans hstep.1, hrest.2.trans hstep.2⟩

theorem enrichTrade_of_unlisted (md : List (String × ℚ × Int))
    (a : InsiderTrade) (hfind : md.find? (fun e => e.1 == a.symbol) = none) :
    enrichTrade md a = { a with significance := some a.calculate_significance } := by
  simp [enrichTrade, hfind]

/-- C7: enrichment consults the quote source (fetch-or-cache under key
"quote_" + symbol) for at most 20 distinct symbols of the batch; a trade
whose symbol is beyond that cap is returned with its enrichment fields
untouched (still null when they started null, classification falling to
LOW); the batch never shrinks or fails; and no cache key outside the
consulted "quote_" keys is touched. -/
theorem enrichment_quote_cap (env : Env) (st : CacheState CacheVal)
    (trades : List InsiderTrade) (now : Int) :
    ((batchSymbols trades).take 20).length ≤ 20 ∧
    (∀ s ∈ (batchSymbols trades).take 20, s ∈ trades.map (fun t => t.symbol)) ∧
    (enrichInsiderTrades env st trades now).1.length = trades.length ∧
    (∀ i : ℕ, ∀ a : InsiderTrade, trades[i]? = some a →
       a.symbol ∉ (batchSymbols trades).take 20 →
       (enrichInsiderTrades env st trades now).1[i]? =
         some { a with significance := some a.calculate_significance }) ∧
    (∀ a : InsiderTrade, a.pct_of_outstanding = none → a.pct_of_market_cap = none →
       ({ a with significance := some a.calculate_significance } : InsiderTrade).market_cap
           = a.market_cap ∧
       ({ a with significance := some a.calculate_significance } : InsiderTrade).significance
           = some "LOW") ∧
    (∀ k, (∀ s ∈ (batchSymbols trades).take 20, k ≠ "quote_" ++ s) →
       alookup ((enrichInsiderTrades env st trades now).2).mem k = alookup st.mem k ∧
       alookup ((enrichInsiderTrades env st trades now).2).file k = alookup st.file k) := by
  refine ⟨List.length_take_le 20 _, ?_, ?_, ?_, ?_, ?_⟩
  · intro s hs
    have hs1 : s ∈ batchSymbols trades := List.mem_of_mem_take hs
    rcases List.mem_filterMap.mp (List.mem_dedup.mp hs1) with ⟨t, ht, hts⟩
    by_cases he : t.symbol ≠ ""
    · rw [if_pos he] at hts
      rcases Option.some.injEq _ _ ▸ hts with rfl
      exact List.mem_map_of_mem _ ht
    · rw [if_neg he] at hts
      exact absurd hts (by simp)
  · simp [enrichInsiderTrades]
  · intro i a ha hnot
    have hkeys : ∀ e ∈ (((batchSymbols trades).take 20).foldl
        (quoteStep env now) ([], st)).1, e.1 ∈ (batchSymbols trades).take 20 := by
      refine quoteFold_keys env now _ _ _ (by simp) (fun s hs => hs)
    have hfind : (((batchSymbols trades).take 20).foldl
        (quoteStep env now) ([], st)).1.find? (fun e => e.1 == a.symbol) = none := by
      rw [List.find?_eq_none]
      intro e he
      simp only [beq_iff_eq]
      intro heq
      exact hnot (heq ▸ hkeys e he)
    simp only [enrichInsiderTrades, List.getElem?_map, ha, Option.map_some']
    rw [enrichTrade_of_unlisted _ _ hfind]
  · intro a hpo hpc
    refine ⟨rfl, ?_⟩
    simp only [InsiderTrade.calculate_significance, hpo, hpc, pyOr0]
    norm_num
  · intro k hk
    have := quoteFold_frame env now k ((batchSymbols trades).take 20) ([], st) hk
    simpa [enrichInsiderTrades] using this

/-- The concrete environment for witnesses: upstream always fails, mock
data empty. -/
def envNull : Env :=
  { fetchInsider := fun _ _ => none
    fetchQuote := fun _ => none
    fetchHolder := fun _ => none
    mockTrades := fun _ => []
    mockHoldings := fun _ => [] }

/-- The batch of 21 trades on 21 distinct symbols for the C7 witness. -/
def c7Trades : List InsiderTrade :=
  (List.range 21).map (fun n => { sampleTrade none none 1000 with symbol := "SYM" ++ toString n })

/-- Witness for C7: with 21 distinct symbols in the batch, the 21st
symbol is beyond the cap and its trade at index 20 comes back with only
the default LOW classification added. -/
theorem enrichment_quote_cap_witness :
    (c7Trades[20]? = some { sampleTrade none none 1000 with symbol := "SYM20" }) ∧
    ("SYM20" ∉ (batchSymbols c7Trades).take 20) ∧
    ((batchSymbols c7Trades).take 20).length ≤ 20 ∧
    (enrichInsiderTrades envNull {} c7Trades 0).1[20]? =
      some { ({ sampleTrade none none 1000 with symbol := "SYM20" } : InsiderTrade) with
        significance :=
          some ({ sampleTrade none none 1000 with symbol := "SYM20" } : InsiderTrade).calculate_significance } := by
  have h1 : c7Trades[20]? = some { sampleTrade none none 1000 with symbol := "SYM20" } := by
    decide
  have h2 : ("SYM20" : String) ∉ (batchSymbols c7Trades).take 20 := by decide
  obtain ⟨hlen, _, _, hix, _, _⟩ := enrichment_quote_cap envNull {} c7Trades 0
  exact ⟨h1, h2, hlen, hix 20 _ h1 h2⟩

-- ===========================================================================
-- CLAIM C2: alert signal as a function of transaction kind.
-- ===========================================================================

/-- The signal discipline an alert actually satisfies: a transaction
alert is "bullish" exactly when the source transaction is a purchase and
"bearish" otherwise (sales AND any other kind, e.g. awards); a cluster
alert is "bullish" exactly for cluster_buy. -/
def alertSignalOk (a : WhaleAlert) : Prop :=
  (∀ t : InsiderTrade, a.details = AlertDetails.trade t →
     a.signal = (if t.is_buy then "bullish" else "bearish")) ∧
  (∀ c : ClusterActivity, a.details = AlertDetails.cluster c →
     a.signal = (if c.activity_type = "cluster_buy" then "bullish" else "bearish"))

theorem mkInsiderAlertSym_ok (t : InsiderTrade) :
    alertSignalOk (mkInsiderAlertSym t) := by
  constructor
  · intro t' ht
    simp only [mkInsiderAlertSym, AlertDetails.trade.injEq] at ht
    rw [← ht]
    rfl
  · intro c hc
    simp [mkInsiderAlertSym] at hc
theorem mkInsiderAlertMkt_ok (t : InsiderTrade) :
    alertSignalOk (mkInsiderAlertMkt t) := by
  constructor
  · intro t' ht
    simp only [mkInsiderAlertMkt, AlertDetails.trade.injEq] at ht
    rw [← ht]
    rfl
  · intro c hc
    simp [mkInsiderAlertMkt] at hc

theorem mkClusterAlert_ok (c : ClusterActivity) :
    alertSignalOk (mkClusterAlert c) := by
  constructor
  · intro t ht
    simp [mkClusterAlert] at ht
  · intro c' hc
    simp only [mkClusterAlert, AlertDetails.cluster.injEq] at hc
    rw [← hc]
    by_cases hcb : c.activity_type = "cluster_buy" <;>
      simp [mkClusterAlert, hcb]

theorem symbolStep_signal_ok (env : Env) (now : Int)
    (acc : List WhaleAlert × CacheState CacheVal) (sym : String)
    (hacc : ∀ a ∈ acc.1, alertSignalOk a) :
    ∀ a ∈ (symbolStep env now acc sym).1, alertSignalOk a := by
  intro a ha
  simp only [symbolStep] at ha
  rcases hq : (detectClusterActivity env
      (getInsiderTrades env acc.2 (some sym) 10 now).2 sym 30 2 now).1 with _ | c
  · rw [hq] at ha
    rcases List.mem_append.mp ha with h | h
    · exact hacc a h
    · obtain ⟨t, _, rfl⟩ := List.mem_map.mp h
      exact mkInsiderAlertSym_ok t
  · rw [hq] at ha
    rcases List.mem_append.mp ha with h | h
    · rcases List.mem_append.mp h with h2 | h2
      · exact hacc a h2
      · obtain ⟨t, _, rfl⟩ := List.mem_map.mp h2
        exact mkInsiderAlertSym_ok t
    · simp only [List.mem_singleton] at h
      rw [h]
      exact mkClusterAlert_ok c

theorem symbolFold_signal_ok (env : Env) (now : Int) :
    ∀ (l : List String) (acc : List WhaleAlert × CacheState CacheVal),
      (∀ a ∈ acc.1, alertSignalOk a) →
      ∀ a ∈ (l.foldl (symbolStep env now) acc).1, alertSignalOk a := by
  intro l
  induction l with
  | nil => intro acc hacc; exact hacc
  | cons s l ih =>
    intro acc hacc
    rw [List.foldl_cons]
    exact ih _ (symbolStep_signal_ok env now acc s hacc)

/-- C2 (amended): for every alert produced by the aggregation, the
signal is "bullish" iff the source transaction is a purchase — a sale
AND every other transaction kind (e.g. an award) is mapped to "bearish";
a cluster alert is "bullish" iff its direction is cluster_buy. -/
theorem alert_signal_function (env : Env) (st : CacheState CacheVal)
    (symbols : Option (List String)) (now : Int) :
    ∀ a ∈ (whaleAlertsCompute env st symbols now).1, alertSignalOk a := by
  intro a ha
  simp only [whaleAlertsCompute] at ha
  rw [sortAlerts, List.mem_insertionSort] at ha
  have hmkt : ∀ a ∈ (marketAlerts env st now).1, alertSignalOk a := by
    intro a' ha'
    simp only [marketAlerts] at ha'
    obtain ⟨t, _, rfl⟩ := List.mem_map.mp ha'
    exact mkInsiderAlertMkt_ok t
  match symbols with
  | none => exact hmkt a ha
  | some syms =>
    dsimp only at ha
    by_cases hne : syms ≠ []
    · rw [if_pos hne] at ha
      exact symbolFold_signal_ok env now (syms.take 5) ([], st) (by simp) a ha
    · rw [if_neg hne] at ha
      exact hmkt a ha

/-- An award transaction (`transaction_type = "A"`): neither a purchase
nor a sale. -/
def awardTrade : InsiderTrade :=
  { symbol := "AWD"
    company_name := "Award Corp"
    reporter_name := "Alice Grant"
    reporter_title := "Director"
    transaction_type := "A"
    transaction_date := 10
    shares_transacted := 10
    price := 60000
    total_value := 600000 }

/-- Environment whose transaction feed delivers exactly the award trade
(via the mock fallback path, which performs no arithmetic). -/
def envC2 : Env := { envNull with mockTrades := fun _ => [awardTrade] }

/-- Counterexample for C2: the award transaction — neither a buy nor a
sell — is emitted with signal "bearish", so a transaction kind other
than buy/sell IS assigned a bullish/bearish signal, against the claimed
strict mapping. -/
theorem award_signal_cex :
    ¬ awardTrade.is_buy ∧ ¬ awardTrade.is_sell ∧
    (getWhaleAlerts envC2 {} none 20 0).1.map (fun a => a.signal) = ["bearish"] ∧
    (getWhaleAlerts envC2 {} none 20 0).1.map (fun a => a.details) =
      [AlertDetails.trade awardTrade] := by
  refine ⟨by decide, by decide, ?_, ?_⟩ <;> decide

/-- Witness for C2 (amended): the aggregation run on the award-trade
environment emits exactly one alert, and the amended signal discipline
holds for it (and for every alert of that run). -/
theorem alert_signal_function_witness :
    (whaleAlertsCompute envC2 {} none 0).1.map (fun a => a.details) =
      [AlertDetails.trade awardTrade] ∧
    alertSignalOk (mkInsiderAlertMkt awardTrade) :=
  ⟨by decide,
   alert_signal_function envC2 {} none 0 (mkInsiderAlertMkt awardTrade) (by
     have hlist : (whaleAlertsCompute envC2 {} none 0).1 =
         [mkInsiderAlertMkt awardTrade] := by
       have hkey : getCached ({} : CacheState CacheVal) (insiderKey none 50) 0 =
           (none, {}) := rfl
       norm_num [whaleAlertsCompute, marketAlerts, getInsiderTrades, hkey,
         envC2, envNull, awardTrade, sortAlerts, List.insertionSort,
         mkInsiderAlertMkt]
     rw [hlist]
     exact List.mem_singleton.mpr rfl)⟩

-- ===========================================================================
-- CLAIM C1: radar sentiment vs. truncation.
-- ===========================================================================

/-- A market-wide sell record for the C1 run (newest timestamps). -/
def c1Sell (n : ℕ) : InsiderTrade :=
  { symbol := "MKT"
    company_name := "Mkt Corp"
    reporter_name := "Seller" ++ toString n
    reporter_title := "Officer"
    transaction_type := "S"
    transaction_date := 10000 + n
    shares_transacted := 1
    price := 600000
    total_value := 600000 }

/-- A market-wide buy record for the C1 run (older timestamps). -/
def c1Buy (n : ℕ) : InsiderTrade :=
  { symbol := "MKT"
    company_name := "Mkt Corp"
    reporter_name := "Buyer" ++ toString n
    reporter_title := "Officer"
    transaction_type := "P"
    transaction_date := 100 + n
    shares_transacted := 1
    price := 600000
    total_value := 600000 }

/-- 23 qualifying trades: 11 recent sells and 12 older buys. -/
def c1Trades : List InsiderTrade :=
  (List.range 11).map c1Sell ++ (List.range 12).map c1Buy

/-- Environment delivering the 23 qualifying trades. -/
def envC1 : Env := { envNull with mockTrades := fun _ => c1Trades }

/-- Counterexample for C1: the untruncated aggregation holds 12 bullish
and 11 bearish alerts (so sentiment over the full qualifying population
would be "bullish"), but the radar summary counts only the truncated
20-alert page — 9 bullish, 11 bearish — and labels the sentiment
"bearish". -/
theorem radar_sentiment_truncation_cex :
    ((whaleAlertsCompute envC1 {} none 0).1.filter
        (fun a => a.signal = "bullish")).length = 12 ∧
    ((whaleAlertsCompute envC1 {} none 0).1.filter
        (fun a => a.signal = "bearish")).length = 11 ∧
    (getRadarData envC1 {} none 0).1.bullish = 9 ∧
    (getRadarData envC1 {} none 0).1.bearish = 11 ∧
    (getRadarData envC1 {} none 0).1.sentiment = "bearish" := by
  refine ⟨?_, ?_, ?_, ?_, ?_⟩ <;> decide

/-- C1 (amended): on a radar cache miss the bullish/bearish counts and
the sentiment label of the radar summary are computed over exactly the
(already truncated) alert list returned by the alerts call — and when
the alerts call itself misses its cache, that list is the first 20
entries of the untruncated aggregation. -/
theorem radar_counts_over_truncated_page (env : Env) (st : CacheState CacheVal)
    (symbols : Option (List String)) (now : Int)
    (hmiss : (getCached st (radarKey symbols) now).1 = none) :
    (getRadarData env st symbols now).1.bullish =
      ((getRadarData env st symbols now).1.alerts.filter
        (fun a => a.signal = "bullish")).length ∧
    (getRadarData env st symbols now).1.bearish =
      ((getRadarData env st symbols now).1.alerts.filter
        (fun a => a.signal = "bearish")).length ∧
    (getRadarData env st symbols now).1.sentiment =
      (if (getRadarData env st symbols now).1.bullish >
          (getRadarData env st symbols now).1.bearish then "bullish"
       else if (getRadarData env st symbols now).1.bearish >
          (getRadarData env st symbols now).1.bullish then "bearish"
       else "neutral") ∧
    (getRadarData env st symbols now).1.total_signals =
      (getRadarData env st symbols now).1.alerts.length ∧
    ((getCached st (whaleKey symbols 20) now).1 = none →
      (getRadarData env st symbols now).1.alerts =
        ((whaleAlertsCompute env st symbols now).1).take 20) := by
  have hst : (getCached st (radarKey symbols) now).2 = st :=
    getCached_fst_none _ _ _ hmiss
  rcases hgc : getCached st (radarKey symbols) now with ⟨o, st1⟩
  rw [hgc] at hmiss hst
  simp only at hmiss hst
  subst hmiss
  refine ⟨?_, ?_, ?_, ?_, ?_⟩
  · simp only [getRadarData, hgc]
  · simp only [getRadarData, hgc]
  · simp only [getRadarData, hgc]
  · simp only [getRadarData, hgc]
  · intro hw
    have hst2 : (getCached st (whaleKey symbols 20) now).2 = st :=
      getCached_fst_none _ _ _ hw
    rcases hgw : getCached st (whaleKey symbols 20) now with ⟨o2, st2⟩
    rw [hgw] at hw hst2
    simp only at hw hst2
    subst hw
    simp only [getRadarData, hgc, getWhaleAlerts, hst, hgw, hst2]
    by_cases hres : ((whaleAlertsCompute env st symbols now).1.take 20) = []
    · simp [hres]
    · simp [hres]

/-- Witness for C1 (amended) at the 23-trade run on an empty cache: both
cache lookups miss and the radar counts are exactly the counts over the
returned (truncated) alert page, which is the 20-entry front of the
untruncated aggregation. -/
theorem radar_counts_truncated_witness :
    ((getCached ({} : CacheState CacheVal) (radarKey none) 0).1 = none) ∧
    ((getCached ({} : CacheState CacheVal) (whaleKey none 20) 0).1 = none) ∧
    (getRadarData envC1 {} none 0).1.bullish =
      ((getRadarData envC1 {} none 0).1.alerts.filter
        (fun a => a.signal = "bullish")).length ∧
    (getRadarData envC1 {} none 0).1.alerts =
      ((whaleAlertsCompute envC1 {} none 0).1).take 20 := by
  have h1 : (getCached ({} : CacheState CacheVal) (radarKey none) 0).1 = none := by decide
  have h2 : (getCached ({} : CacheState CacheVal) (whaleKey none 20) 0).1 = none := by decide
  obtain ⟨hb, _, _, _, hp⟩ := radar_counts_over_truncated_page envC1 {} none 0 h1
  exact ⟨h1, h2, hb, hp h2⟩

-- ===========================================================================
-- CLAIM C10: empty results and the cache.
-- ===========================================================================

theorem getCachedFile_none_mono {α : Type} (s : CacheState α) (k : String)
    (t t' : Int) (h : (getCachedFile s k t).1 = none) (hle : t ≤ t') :
    (getCachedFile s k t').1 = none := by
  unfold getCachedFile at h ⊢
  cases hf : alookup s.file k with
  | none => simp
  | some e =>
    obtain ⟨d, m⟩ := e
    by_cases hfm : t - m < CACHE_DURATION
    · simp [hf, hfm] at h
    · have hfm' : ¬ (t' - m < CACHE_DURATION) := by
        simp only [CACHE_DURATION] at *
        omega
      simp [hf, hfm']

theorem getCached_none_mono {α : Type} (s : CacheState α) (k : String)
    (t t' : Int) (h : (getCached s k t).1 = none) (hle : t ≤ t') :
    (getCached s k t').1 = none := by
  unfold getCached at h ⊢
  cases hm : alookup s.mem k with
  | none =>
    rw [hm] at h
    exact getCachedFile_none_mono s k t t' h hle
  | some e =>
    obtain ⟨d, tm⟩ := e
    by_cases hmt : t - tm < CACHE_DURATION
    · simp [hm, hmt] at h
    · have hmt' : ¬ (t' - tm < CACHE_DURATION) := by
        simp only [CACHE_DURATION] at *
        omega
      simp only [hm, hmt, if_neg, if_false] at h
      simp only [hm, hmt', if_neg, if_false]
      exact getCachedFile_none_mono s k t t' h hle

/-- The first component of the enricher is a map over the batch. -/
theorem enrichInsiderTrades_fst (env : Env) (s : CacheState CacheVal)
    (l : List InsiderTrade) (now : Int) :
    (enrichInsiderTrades env s l now).1 =
      l.map (enrichTrade (((batchSymbols l).take 20).foldl
        (quoteStep env now) ([], s)).1) := rfl

/-- C10 (amended): each cached pipeline read stores only non-empty
results under its own key.  On a cache miss, an empty insider-trades or
guru-holdings result leaves the whole cache state unchanged; an empty
whale-alerts result adds nothing beyond what its nested reads wrote (the
final state is exactly the aggregation's state, with the read's own
write happening if and only if the truncated result is non-empty); and a
key that misses once keeps missing at any later time while the state is
unchanged, so equal-argument calls keep recomputing. -/
theorem empty_results_not_cached :
    (∀ (env : Env) (st : CacheState CacheVal) (symbol : Option String)
       (limit : ℕ) (now : Int),
       (getCached st (insiderKey symbol limit) now).1 = none →
       (getInsiderTrades env st symbol limit now).1 = [] →
       (getInsiderTrades env st symbol limit now).2 = st) ∧
    (∀ (env : Env) (st : CacheState CacheVal) (guru_id : String)
       (limit : ℕ) (now : Int),
       (getCached st (guruKey guru_id limit) now).1 = none →
       (getGuruHoldings env st guru_id limit now).1 = [] →
       (getGuruHoldings env st guru_id limit now).2 = st) ∧
    (∀ (env : Env) (st : CacheState CacheVal) (symbols : Option (List String))
       (limit : ℕ) (now : Int),
       (getCached st (whaleKey symbols limit) now).1 = none →
       ((getWhaleAlerts env st symbols limit now).1 = [] →
          (getWhaleAlerts env st symbols limit now).2 =
            (whaleAlertsCompute env st symbols now).2) ∧
       ((getWhaleAlerts env st symbols limit now).1 ≠ [] →
          (getWhaleAlerts env st symbols limit now).2 =
            setCached (whaleAlertsCompute env st symbols now).2
              (whaleKey symbols limit)
              (CacheVal.alerts ((whaleAlertsCompute env st symbols now).1.take limit))
              now)) ∧
    (∀ (s : CacheState CacheVal) (k : String) (t t' : Int),
       (getCached s k t).1 = none → t ≤ t' → (getCached s k t').1 = none) := by
  refine ⟨?_, ?_, ?_, fun s k t t' h hle => getCached_none_mono s k t t' h hle⟩
  · intro env st symbol limit now hmiss hres
    have hst : (getCached st (insiderKey symbol limit) now).2 = st :=
      getCached_fst_none _ _ _ hmiss
    rcases hgc : getCached st (insiderKey symbol limit) now with ⟨o, st1⟩
    rw [hgc] at hmiss hst
    simp only at hmiss hst
    subst hmiss
    simp only [getInsiderTrades, hgc] at hres ⊢
    cases hfetch : env.fetchInsider symbol limit with
    | none => exact hst
    | some raw =>
      cases raw with
      | nil => exact hst
      | cons r rs =>
        simp only [hfetch] at hres ⊢
        by_cases hp : (enrichInsiderTrades env st1
            (((r :: rs).take limit).filterMap parseRawTrade) now).1 = []
        · simp only [if_pos hp]
          have hparsed : ((r :: rs).take limit).filterMap parseRawTrade = [] := by
            rw [enrichInsiderTrades_fst] at hp
            exact List.map_eq_nil_iff.mp hp
          rw [hparsed]
          exact hst
        · simp only [if_neg hp] at hres
          exact absurd hres hp
  · intro env st guru_id limit now hmiss hres
    have hst : (getCached st (guruKey guru_id limit) now).2 = st :=
      getCached_fst_none _ _ _ hmiss
    rcases hgc : getCached st (guruKey guru_id limit) now with ⟨o, st1⟩
    rw [hgc] at hmiss hst
    simp only at hmiss hst
    subst hmiss
    simp only [getGuruHoldings, hgc] at hres ⊢
    cases hguru : GURU_FUNDS.find? (fun g => g.id == guru_id) with
    | none => exact hst
    | some guru =>
      simp only [hguru] at hres ⊢
      cases hfetch : env.fetchHolder guru.cik with
      | none => exact hst
      | some raw =>
        cases raw with
        | nil => exact hst
        | cons r rs =>
          simp only [hfetch] at hres ⊢
          by_cases hp : ((r :: rs).take limit).filterMap (parseRawHolding guru) = []
          · simp only [if_pos hp]
            exact hst
          · simp only [if_neg hp] at hres
            exact absurd hres hp
  · intro env st symbols limit now hmiss
    have hst : (getCached st (whaleKey symbols limit) now).2 = st :=
      getCached_fst_none _ _ _ hmiss
    rcases hgc : getCached st (whaleKey symbols limit) now with ⟨o, st1⟩
    rw [hgc] at hmiss hst
    simp only at hmiss hst
    subst hmiss
    constructor
    · intro hres
      simp only [getWhaleAlerts, hgc, hst] at hres ⊢
      by_cases hp : (whaleAlertsCompute env st symbols now).1.take limit = []
      · simp only [if_pos hp]
      · simp only [if_neg hp] at hres
        exact absurd hres hp
    · intro hres
      simp only [getWhaleAlerts, hgc, hst] at hres ⊢
      by_cases hp : (whaleAlertsCompute env st symbols now).1.take limit = []
      · simp only [if_pos hp] at hres
        exact absurd hp hres
      · simp only [if_neg hp]

/-- Raw upstream record for the C10 run: one parseable purchase of
notional 100 (below every alert floor). -/
def c10Raw : RawTrade :=
  { symbol := "SM"
    companyName := "Small Co"
    reportingName := "Sam Lee"
    typeOfOwner := "CEO"
    transactionType := "P"
    transactionDate := 5
    securitiesTransacted := some 1
    price := some 100 }

/-- Environment whose market-wide transaction fetch returns the single
small raw record. -/
def envC10 : Env := { envNull with fetchInsider := fun _ _ => some [c10Raw] }

/-- The parsed form of `c10Raw`. -/
def c10Trade : InsiderTrade :=
  { symbol := "SM"
    company_name := "Small Co"
    reporter_name := "Sam Lee"
    reporter_title := "CEO"
    transaction_type := "P"
    transaction_date := 5
    shares_transacted := 1
    price := 100
    total_value := 100 }

/-- The enriched (classification-only) form of `c10Trade`. -/
def c10TradeE : InsiderTrade := { c10Trade with significance := some "LOW" }

/-- Counterexample for C10: `get_whale_alerts` (market-wide, cache miss)
computes an empty result, yet the cache state is NOT left unchanged —
the nested `get_insider_trades` call cached its own non-empty trade list
under its own key. -/
theorem whale_empty_result_state_change_cex :
    (getCached ({} : CacheState CacheVal) (whaleKey none 20) 0).1 = none ∧
    (getWhaleAlerts envC10 {} none 20 0).1 = [] ∧
    (getWhaleAlerts envC10 {} none 20 0).2 ≠ ({} : CacheState CacheVal) ∧
    alookup ((getWhaleAlerts envC10 {} none 20 0).2).mem (insiderKey none 50) =
      some (CacheVal.trades [c10TradeE], 0) := by
  have hparse : parseRawTrade c10Raw = some c10Trade := by
    norm_num [parseRawTrade, c10Raw, c10Trade]
  have hsig : c10Trade.calculate_significance = "LOW" := by
    norm_num [InsiderTrade.calculate_significance, c10Trade, pyOr0]
  have henrichTrade : enrichTrade [] c10Trade = c10TradeE := by
    rw [enrichTrade_of_unlisted [] c10Trade rfl, hsig]
    rfl
  have hfold : ((batchSymbols [c10Trade]).take 20).foldl (quoteStep envC10 0) ([], {}) =
      ([], ({} : CacheState CacheVal)) := by decide
  have henrich : enrichInsiderTrades envC10 {} [c10Trade] 0 = ([c10TradeE], {}) := by
    simp only [enrichInsiderTrades, hfold]
    rw [List.map_cons, List.map_nil, henrichTrade]
  have hinskey : getCached ({} : CacheState CacheVal) (insiderKey none 50) 0 =
      (none, {}) := rfl
  have hfetch : envC10.fetchInsider none 50 = some [c10Raw] := rfl
  have hparsed : (List.take 50 [c10Raw]).filterMap parseRawTrade = [c10Trade] := by
    simp [hparse]
  have hins : getInsiderTrades envC10 {} none 50 0 =
      ([c10TradeE], setCached {} (insiderKey none 50) (CacheVal.trades [c10TradeE]) 0) := by
    simp only [getInsiderTrades, hinskey, hfetch, hparsed, henrich]
    simp
  have hwkey : getCached ({} : CacheState CacheVal) (whaleKey none 20) 0 =
      (none, {}) := rfl
  have hwhale : getWhaleAlerts envC10 {} none 20 0 =
      ([], setCached {} (insiderKey none 50) (CacheVal.trades [c10TradeE]) 0) := by
    simp only [getWhaleAlerts, hwkey, whaleAlertsCompute, marketAlerts, hins]
    norm_num [c10TradeE, c10Trade, sortAlerts, List.insertionSort]
  refine ⟨rfl, ?_, ?_, ?_⟩
  · rw [hwhale]
  · rw [hwhale]
    simp [setCached, aset]
  · rw [hwhale]
    exact alookup_aset_self _ _ _ _

/-- Witness for C10 (amended) at concrete empty-result runs of all three
cached reads on an empty cache. -/
theorem empty_results_not_cached_witness :
    ((getCached ({} : CacheState CacheVal) (insiderKey none 50) 0).1 = none ∧
     (getInsiderTrades envNull {} none 50 0).1 = [] ∧
     (getInsiderTrades envNull {} none 50 0).2 = ({} : CacheState CacheVal)) ∧
    ((getCached ({} : CacheState CacheVal) (guruKey "berkshire" 20) 0).1 = none ∧
     (getGuruHoldings envNull {} "berkshire" 20 0).1 = [] ∧
     (getGuruHoldings envNull {} "berkshire" 20 0).2 = ({} : CacheState CacheVal)) ∧
    ((getCached ({} : CacheState CacheVal) (whaleKey none 20) 0).1 = none ∧
     (getWhaleAlerts envNull {} none 20 0).1 = [] ∧
     (getWhaleAlerts envNull {} none 20 0).2 =
       (whaleAlertsCompute envNull {} none 0).2) := by
  obtain ⟨hA, hB, hC, _⟩ := empty_results_not_cached
  refine ⟨⟨by decide, by decide, ?_⟩, ⟨by decide, by decide, ?_⟩,
    ⟨by decide, by decide, ?_⟩⟩
  · exact hA envNull {} none 50 0 (by decide) (by decide)
  · exact hB envNull {} "berkshire" 20 0 (by decide) (by decide)
  · exact (hC envNull {} none 20 0 (by decide)).1 (by decide)
